import Mathlib

/-!
Shallow embedding of the caresync chat service (src/main.py, src/tools.py,
src/models.py) and proofs about its specification claims.

Conventions of the embedding:
* Python `None`-able values become `Option`; a backend HTTP response becomes
  `Except Nat body` where `.error s` models a non-2xx status `s` and `.ok`
  models a 2xx response with parsed JSON body.
* Python floats are modelled as exact rationals (`ℚ`).  The transcendental
  functions `math.sin`, `math.cos`, `math.atan2`, `math.sqrt` and the constant
  `math.pi` used by the haversine computation in `tools.py` are IEEE-double
  functions; every double is a rational number, so they are modelled as an
  unspecified bundle of functions `ℚ → ℚ` (`TrigModel`) threaded through the
  definitions.  All claims below are independent of the concrete bundle.
* rapidfuzz `fuzz.ratio a b` is the normalized InDel similarity
  `100 * 2 * lcs(a,b) / (|a| + |b|)` (and `100` when both strings are empty);
  `process.extractOne(q, choices, scorer=fuzz.ratio)` returns the choice with
  the highest score, earliest choice winning ties, and `None` on an empty
  choice list.
* Python truthiness (`if x:`) on optional strings, lists and ints becomes
  `strTruthy`, `listTruthy`, `intTruthy`.
-/

/-- Python `str.lower()` (ASCII case folding, which covers every string the
service compares), written over the character list so that concrete runs
reduce inside the kernel. -/
def pyLower (s : String) : String := String.mk (s.data.map Char.toLower)

/-- Python truthiness of an optional string: `None` and `""` are falsy. -/
def strTruthy : Option String → Bool
  | none => false
  | some s => decide (s ≠ "")

/-- Python truthiness of an optional list: `None` and `[]` are falsy. -/
def listTruthy {α : Type} : Option (List α) → Bool
  | none => false
  | some l => !l.isEmpty

/-- Python truthiness of an optional int: `None` and `0` are falsy. -/
def intTruthy : Option Int → Bool
  | none => false
  | some z => decide (z ≠ 0)

/-- One cell-by-cell step of the longest-common-subsequence dynamic program:
given the character `c` of the left string, the remaining characters `bs` of
the right string, the tail of the previous row, the diagonal entry and the
entry to the left, produce the tail of the next row. -/
def lcsRowAux (c : Char) : List Char → List Nat → Nat → Nat → List Nat
  | [], _, _, _ => []
  | _ :: _, [], _, _ => []
  | b :: bs, p :: ps, diag, left =>
    let cur := if c = b then diag + 1 else max left p
    cur :: lcsRowAux c bs ps p cur

/-- Next row of the LCS dynamic program. -/
def lcsRow (c : Char) (bs : List Char) (prev : List Nat) : List Nat :=
  match prev with
  | [] => []
  | p0 :: ps => 0 :: lcsRowAux c bs ps p0 0

/-- Length of the longest common subsequence of two character lists, computed
row by row. -/
def lcsLen (as bs : List Char) : Nat :=
  (as.foldl (fun row a => lcsRow a bs row) (List.replicate (bs.length + 1) 0)).getLastD 0

/-- rapidfuzz `fuzz.ratio`: normalized InDel similarity in `[0, 100]`,
`100 * (2 * lcs) / (|a| + |b|)` written as the exact rational
`mkRat (200 * lcs) (|a| + |b|)`, with the empty-vs-empty case defined
as 100. -/
def ratioQ (a b : String) : ℚ :=
  let la := a.data.length
  let lb := b.data.length
  if la + lb = 0 then 100 else mkRat (200 * (lcsLen a.data b.data : Int)) (la + lb)

/-- Scan step of rapidfuzz `process.extractOne`: keep the best choice seen so
far, replacing it only on a strictly higher score (so the earliest choice
wins ties). -/
def extractGo (q : String) : String → ℚ → List String → String × ℚ
  | b, s, [] => (b, s)
  | b, s, c :: cs =>
    if s < ratioQ q c then extractGo q c (ratioQ q c) cs else extractGo q b s cs

/-- rapidfuzz `process.extractOne(query, choices, scorer=fuzz.ratio)`: best
choice with its score, earliest choice winning ties; `none` when `choices` is
empty. -/
def extractOne (q : String) : List String → Option (String × ℚ)
  | [] => none
  | c :: cs => some (extractGo q c (ratioQ q c) cs)

/-- tools.py `fuzzy_enum_match` (lines 42-46): best fuzzy match against the
canonical choices if its score reaches the threshold 80, else `None`.  (For an
empty choice list Python would raise; every call site passes a fixed non-empty
enum list.) -/
def fuzzy_enum_match (value : String) (choices : List String) : Option String :=
  match extractOne value choices with
  | none => none
  | some (m, s) => if 80 ≤ s then some m else none

/-! ## Data model (src/models.py, plus the raw-JSON fields tools.py reads) -/

/-- models.py `LocationResponse`, restricted to the fields tools.py reads. -/
structure Location where
  city : Option String := none
  thana : Option String := none
  po : Option String := none
  zoneId : Option Int := none
deriving DecidableEq, Repr

/-- Location defaulted from Python `h.get('locationResponse') or {}`. -/
def emptyLocation : Location := {}

/-- models.py `HospitalResponse`, restricted to the fields tools.py reads.
`id` and `name` are required by the data model; the remaining fields may be
missing in the raw JSON records the tools manipulate. -/
structure Hospital where
  id : Int
  name : String
  icus : Option Int := none
  latitude : Option ℚ := none
  longitude : Option ℚ := none
  locationResponse : Option Location := none
deriving DecidableEq, Repr

/-- models.py `TestResponse`, restricted to the one field `hospital_search`
reads; `hospitalResponse := none` models a test record without that key. -/
structure TestRec where
  hospitalResponse : Option Hospital := none
deriving DecidableEq, Repr

/-- models.py `FeedbackResponse`, restricted to the `rating` field;
`none` models a feedback entry whose rating is missing or null (ratings are
integers in the data model). -/
structure Feedback where
  rating : Option Int := none
deriving DecidableEq, Repr

/-- models.py `DoctorHospitalResponse`, restricted to the field read. -/
structure DoctorHospital where
  hospitalName : Option String := none
deriving DecidableEq, Repr

/-- models.py `DepartmentResponse`, restricted to the field read. -/
structure Department where
  name : Option String := none
deriving DecidableEq, Repr

/-- models.py `DoctorResponse`, restricted to the fields doctor_search reads. -/
structure Doctor where
  name : Option String := none
  specialties : Option (List String) := none
  departmentResponse : Option Department := none
  locationResponse : Option Location := none
  doctorHospitals : Option (List DoctorHospital) := none
deriving DecidableEq, Repr

/-- Backend environment: one field per remote endpoint the tools call.
`.error s` models a response with non-2xx status `s` (or a failed request);
`.ok` models a 2xx response with its parsed body (for the two endpoints whose
raw text is returned verbatim, the body is kept as a `String`). -/
structure Env where
  testsByType : String → Except Nat (List TestRec)
  hospitalsByCostRange : String → Except Nat (List Hospital)
  hospitalsByType : String → Except Nat (List Hospital)
  allHospitals : Except Nat (List Hospital)
  feedbacksByHospital : Int → Except Nat (List Feedback)
  testsByHospitalText : Int → Except Nat String
  feedbacksByHospitalText : Int → Except Nat String
  allDoctors : Except Nat (List Doctor)

/-- Bundle of the IEEE-double functions from Python's `math` module used by
the haversine computation; every double is a rational, so they are modelled
as unspecified functions on `ℚ`. -/
structure TrigModel where
  sin : ℚ → ℚ
  cos : ℚ → ℚ
  atan2 : ℚ → ℚ → ℚ
  sqrt : ℚ → ℚ
  pi : ℚ

/-- Python enum `TEST_TYPE` values in declaration order (models.py). -/
def valid_test_types : List String :=
  ["BLOOD", "HEART", "BRAIN", "LUNG", "EYE", "BONE", "SKIN", "GENERAL", "LIVER", "KIDNEY"]

/-- Python enum `COST_RANGE` values in declaration order (models.py). -/
def valid_cost_ranges : List String :=
  ["VERY_LOW", "LOW", "MODERATE", "HIGH", "VERY_HIGH"]

/-- Python enum `HOSPITAL_TYPE` values in declaration order (models.py). -/
def valid_hospital_types : List String :=
  ["PUBLIC", "PRIVATE", "GENERAL", "SPECIALIZED", "CHILDREN", "MATERNITY", "RESEARCH", "REHABILITATION"]

/-! ## Python container-order helpers -/

/-- Python list slice `l[:n]` for an optional bound: `None` keeps the whole
list, a nonnegative bound keeps the first `n` elements, a negative bound drops
the last `-n` elements. -/
def pySlice {α : Type} (l : List α) : Option Int → List α
  | none => l
  | some n => if 0 ≤ n then l.take n.toNat else l.take (l.length - (-n).toNat)

/-- Iteration order of a CPython `set` of identifiers.  CPython hashes a small
nonnegative int to itself and iterates the hash table in slot order, so a set
of small distinct nonnegative identifiers (the only kind appearing in the
records considered here) is iterated in ascending numeric order; the model
therefore deduplicates and sorts ascending. -/
def pySetAsc (xs : List Int) : List Int :=
  List.insertionSort (fun a b => a ≤ b) xs.dedup

/-- Structural engine of `pyDictValues`: the fuel, always at least the list
length, makes the recursion structural so that concrete runs reduce inside
the kernel. -/
def pyDictValuesGo : Nat → List Hospital → List Hospital
  | _, [] => []
  | 0, _ :: _ => []
  | fuel + 1, h :: t =>
    (((h :: t).reverse.find? fun g => decide (g.id = h.id)).getD h)
      :: pyDictValuesGo fuel (t.filter fun g => decide (g.id ≠ h.id))

/-- Python dict comprehension `{h['id']: h for h in l}` followed by
`.values()`: keys keep the order of their first occurrence, and the value
stored for a key is the last record carrying it. -/
def pyDictValues (l : List Hospital) : List Hospital := pyDictValuesGo l.length l

/-! ## tools.py `intersect_hospitals` (lines 31-39) -/

/-- tools.py `intersect_hospitals`: drop empty per-category lists, intersect
the identifier sets of the rest (iterated in CPython set order, see
`pySetAsc`), and map each common identifier back to the record a Python dict
comprehension over the concatenation would store for it (the last record with
that identifier).  Python's `id_to_hospital[i]` cannot fail because every
common identifier occurs in some list; the model's `find?` over the reversed
concatenation returns that same record. -/
def intersect_hospitals (lists : List (List Hospital)) : List Hospital :=
  if lists.isEmpty then []
  else
    match (lists.filter fun l => !l.isEmpty).map (fun l => l.map (·.id)) with
    | [] => []
    | s0 :: rest =>
      let common := pySetAsc (s0.filter fun i => rest.all fun s => decide (i ∈ s))
      common.filterMap fun i => lists.flatten.reverse.find? fun h => decide (h.id = i)

/-! ## tools.py `hospital_search` (lines 48-209) -/

/-- Argument record of `hospital_search_tool`, with the source's defaults
(`top_n` defaults to 5). -/
structure HQuery where
  test_types : Option (List String) := none
  cost_ranges : Option (List String) := none
  hospital_types : Option (List String) := none
  icu_min : Option Int := none
  city : Option String := none
  thana : Option String := none
  po : Option String := none
  zone_id : Option Int := none
  latitude : Option ℚ := none
  longitude : Option ℚ := none
  radius_km : Option ℚ := none
  hospital_name : Option String := none
  top_n : Option Int := some 5
deriving DecidableEq, Repr

/-- Steps 1-3 of `hospital_search` (tools.py lines 70-96): each truthy
category list is replaced token-by-token by its fuzzy enum normalization,
non-matching tokens dropped; a falsy category list is left as passed. -/
def normalizeCats (q : HQuery) : HQuery :=
  { q with
    test_types :=
      if listTruthy q.test_types then
        some ((q.test_types.getD []).filterMap fun t => fuzzy_enum_match t valid_test_types)
      else q.test_types
    cost_ranges :=
      if listTruthy q.cost_ranges then
        some ((q.cost_ranges.getD []).filterMap fun c => fuzzy_enum_match c valid_cost_ranges)
      else q.cost_ranges
    hospital_types :=
      if listTruthy q.hospital_types then
        some ((q.hospital_types.getD []).filterMap fun h => fuzzy_enum_match h valid_hospital_types)
      else q.hospital_types }

/-- Step 4 of `hospital_search` (lines 98-109): one backend call per
normalized test type; each successful response contributes the hospitals
embedded in its test records; if at least one call succeeded the flattened
results are deduplicated by identifier, else the category contributes
nothing. -/
def test_type_set (env : Env) (ts : List String) : Option (List Hospital) :=
  match ts.filterMap fun t => (env.testsByType t).toOption with
  | [] => none
  | tests => some (pyDictValues ((tests.map fun l => l.filterMap (·.hospitalResponse)).flatten))

/-- Steps 5-6 of `hospital_search` (lines 111-131) for the cost-range and
hospital-type categories: one backend call per normalized value, flatten the
successful responses and deduplicate by identifier; nothing if every call
failed. -/
def hospital_list_set (fetch : String → Except Nat (List Hospital)) (vs : List String) :
    Option (List Hospital) :=
  match vs.filterMap fun v => (fetch v).toOption with
  | [] => none
  | ls => some (pyDictValues ls.flatten)

/-- Steps 4-7 of `hospital_search` (lines 97-136): the per-category hospital
sets, in source order (test types, cost ranges, hospital types); when no
category contributed a set, the full all-hospitals fetch is the only set (and
no set at all if that fetch fails). -/
def candidate_sets (env : Env) (q : HQuery) : List (List Hospital) :=
  let n := normalizeCats q
  let sets :=
    (if listTruthy n.test_types then
      (test_type_set env (n.test_types.getD [])).toList
    else []) ++
    (if listTruthy n.cost_ranges then
      (hospital_list_set env.hospitalsByCostRange (n.cost_ranges.getD [])).toList
    else []) ++
    (if listTruthy n.hospital_types then
      (hospital_list_set env.hospitalsByType (n.hospital_types.getD [])).toList
    else [])
  if sets.isEmpty then
    match env.allHospitals with
    | .ok hs => [hs]
    | .error _ => []
  else sets

/-- Step 8 of `hospital_search` (line 138): the candidate pool. -/
def candidatePool (env : Env) (q : HQuery) : List Hospital :=
  intersect_hospitals (candidate_sets env q)

/-- Python `math.radians(x) = x * pi / 180` under the double model `M`. -/
def radiansQ (M : TrigModel) (x : ℚ) : ℚ := x * M.pi / 180

/-- Haversine great-circle distance as computed by tools.py lines 166-176,
with Earth radius `R = 6371`, under the double model `M`. -/
def haversineDist (M : TrigModel) (lat1 lon1 lat2 lon2 : ℚ) : ℚ :=
  let dlat := radiansQ M (lat1 - lat2)
  let dlon := radiansQ M (lon1 - lon2)
  let a := M.sin (dlat / 2) ^ 2 +
    M.cos (radiansQ M lat2) * M.cos (radiansQ M lat1) * M.sin (dlon / 2) ^ 2
  let c := 2 * M.atan2 (M.sqrt a) (M.sqrt (1 - a))
  6371 * c

/-- ICU guard of `hospital_filter` (tools.py line 141): fails when `icu_min`
was passed and the record's ICU count is missing or below it. -/
def hf_icu_ok (q : HQuery) (h : Hospital) : Bool :=
  !(q.icu_min.isSome && (h.icus.isNone || decide (h.icus.getD 0 < q.icu_min.getD 0)))

/-- City guard of `hospital_filter` (lines 145-148): checked only when both
the query city and the record city are truthy. -/
def hf_city_ok (q : HQuery) (h : Hospital) : Bool :=
  !(strTruthy q.city && strTruthy (h.locationResponse.getD emptyLocation).city &&
    decide (ratioQ (pyLower (q.city.getD ""))
      (pyLower (((h.locationResponse.getD emptyLocation).city).getD "")) < 80))

/-- Thana guard of `hospital_filter` (lines 149-152). -/
def hf_thana_ok (q : HQuery) (h : Hospital) : Bool :=
  !(strTruthy q.thana && strTruthy (h.locationResponse.getD emptyLocation).thana &&
    decide (ratioQ (pyLower (q.thana.getD ""))
      (pyLower (((h.locationResponse.getD emptyLocation).thana).getD "")) < 80))

/-- Post-office guard of `hospital_filter` (lines 153-156). -/
def hf_po_ok (q : HQuery) (h : Hospital) : Bool :=
  !(strTruthy q.po && strTruthy (h.locationResponse.getD emptyLocation).po &&
    decide (ratioQ (pyLower (q.po.getD ""))
      (pyLower (((h.locationResponse.getD emptyLocation).po).getD "")) < 80))

/-- Zone guard of `hospital_filter` (lines 157-158): Python `if zone_id and
loc.get('zoneId') != zone_id`, so a zero `zone_id` is falsy and never
checked. -/
def hf_zone_ok (q : HQuery) (h : Hospital) : Bool :=
  !(intTruthy q.zone_id &&
    decide ((h.locationResponse.getD emptyLocation).zoneId ≠ q.zone_id))

/-- Hospital-name guard of `hospital_filter` (lines 160-163). -/
def hf_name_ok (q : HQuery) (h : Hospital) : Bool :=
  !(strTruthy q.hospital_name && decide (h.name ≠ "") &&
    decide (ratioQ (pyLower (q.hospital_name.getD "")) (pyLower h.name) < 80))

/-- Geo guard of `hospital_filter` (lines 165-178): applied only when
latitude, longitude and radius were all passed; fails when either record
coordinate is missing or the haversine distance exceeds the radius. -/
def hf_geo_ok (M : TrigModel) (q : HQuery) (h : Hospital) : Bool :=
  !(q.latitude.isSome && q.longitude.isSome && q.radius_km.isSome) ||
    (h.latitude.isSome && h.longitude.isSome &&
      decide (haversineDist M (q.latitude.getD 0) (q.longitude.getD 0)
        (h.latitude.getD 0) (h.longitude.getD 0) ≤ q.radius_km.getD 0))

/-- Step 9 of `hospital_search`: the scalar/free-text filter predicate
`hospital_filter` (tools.py lines 140-179).  Each guard block of the source
either returns `False` or falls through without side effects, so the
predicate is the conjunction of the guards, in source order. -/
def hospital_filter (M : TrigModel) (q : HQuery) (h : Hospital) : Bool :=
  hf_icu_ok q h && hf_city_ok q h && hf_thana_ok q h && hf_po_ok q h &&
    hf_zone_ok q h && hf_name_ok q h && hf_geo_ok M q h

/-- Survivors of the filter pass (tools.py line 180). -/
def survivors (M : TrigModel) (env : Env) (q : HQuery) : List Hospital :=
  (candidatePool env q).filter (hospital_filter M q)

/-- Python `sum(ratings)`: a left fold of addition from 0. -/
def pySum (l : List Int) : Int := l.foldl (fun a b => a + b) 0

/-- Python `sum(ratings) / len(ratings)`: the arithmetic mean of a list of
integer ratings, as the exact rational `mkRat (sum) (length)`. -/
def pyMean (l : List Int) : ℚ := mkRat (pySum l) l.length

/-- Hospital record augmented with the `ratings` and `averageRating` keys the
feedback pass adds (tools.py lines 182-202). -/
structure RankedHospital where
  base : Hospital
  ratings : List Int
  averageRating : ℚ
deriving DecidableEq, Repr

/-- Feedback augmentation of one surviving record (tools.py lines 183-202):
for a truthy identifier fetch the hospital's feedback entries; on 2xx the
non-null ratings and their arithmetic mean (0 when empty) are attached, on a
non-2xx status or an exception the record degrades to no ratings and average
0; a falsy identifier skips the fetch and also yields no ratings and 0. -/
def annotate (env : Env) (h : Hospital) : RankedHospital :=
  if h.id ≠ 0 then
    match env.feedbacksByHospital h.id with
    | .ok fbs =>
      let ratings := fbs.filterMap (·.rating)
      { base := h, ratings := ratings
        averageRating := if ratings.isEmpty then 0 else pyMean ratings }
    | .error _ => { base := h, ratings := [], averageRating := 0 }
  else { base := h, ratings := [], averageRating := 0 }

/-- Annotated survivors in candidate order (the list Python sorts). -/
def annotatedSurvivors (M : TrigModel) (env : Env) (q : HQuery) : List RankedHospital :=
  (survivors M env q).map (annotate env)

/-- Python `sorted(filtered, key=lambda h: h.get('averageRating', 0),
reverse=True)`: a stable sort, descending by average rating.  Python's sort is
stable and any stable sort of a total preorder produces the same list, so it
is modelled by the stable structural insertion sort (which inserts an
earlier element before the later equal-key elements, so equal keys keep their
input order). -/
def pySortByRatingDesc (l : List RankedHospital) : List RankedHospital :=
  List.insertionSort (fun a b => b.averageRating ≤ a.averageRating) l

/-- tools.py `hospital_search_tool` (lines 48-209): the full pipeline from
raw arguments to the returned (pre-serialization) record list. -/
def hospital_search_tool (M : TrigModel) (env : Env) (q : HQuery) : List RankedHospital :=
  pySlice (pySortByRatingDesc (annotatedSurvivors M env q)) q.top_n

/-! ## tools.py `doctor_search` (lines 307-405) -/

/-- Argument record of `doctor_search_tool`, with the source's defaults
(`top_n` defaults to 10). -/
structure DQuery where
  specialties : Option (List String) := none
  department : Option String := none
  doctor_name : Option String := none
  city : Option String := none
  hospital_name : Option String := none
  top_n : Option Int := some 10
deriving DecidableEq, Repr

/-- Specialty guard of `doctor_filter` (tools.py lines 332-344): when truthy
specialties are queried, some queried specialty must fuzzy-match some of the
doctor's specialties at score at least 80. -/
def doctor_specialty_ok (q : DQuery) (d : Doctor) : Bool :=
  !(listTruthy q.specialties) ||
    (q.specialties.getD []).any fun s =>
      (d.specialties.getD []).any fun t =>
        decide (80 ≤ ratioQ (pyLower s) (pyLower t))

/-- Department guard of `doctor_filter` (tools.py lines 347-355): when a
truthy department is queried, the doctor's department name must be truthy and
fuzzy-match at score at least 80 (a missing department name excludes). -/
def doctor_department_ok (q : DQuery) (d : Doctor) : Bool :=
  !(strTruthy q.department) ||
    (decide (((d.departmentResponse.getD {}).name).getD "" ≠ "") &&
      decide (80 ≤ ratioQ (pyLower (q.department.getD ""))
        (pyLower (((d.departmentResponse.getD {}).name).getD ""))))

/-- Doctor-name guard of `doctor_filter` (tools.py lines 358-365). -/
def doctor_name_ok (q : DQuery) (d : Doctor) : Bool :=
  !(strTruthy q.doctor_name) ||
    (decide (d.name.getD "" ≠ "") &&
      decide (80 ≤ ratioQ (pyLower (q.doctor_name.getD "")) (pyLower (d.name.getD ""))))

/-- City guard of `doctor_filter` (tools.py lines 368-376). -/
def doctor_city_ok (q : DQuery) (d : Doctor) : Bool :=
  !(strTruthy q.city) ||
    (decide (((d.locationResponse.getD {}).city).getD "" ≠ "") &&
      decide (80 ≤ ratioQ (pyLower (q.city.getD ""))
        (pyLower (((d.locationResponse.getD {}).city).getD ""))))

/-- Hospital-affiliation guard of `doctor_filter` (tools.py lines 379-390):
some affiliated hospital with a truthy name must fuzzy-match at score at
least 80. -/
def doctor_hospital_ok (q : DQuery) (d : Doctor) : Bool :=
  !(strTruthy q.hospital_name) ||
    (d.doctorHospitals.getD []).any fun hosp =>
      strTruthy hosp.hospitalName &&
        decide (80 ≤ ratioQ (pyLower (q.hospital_name.getD ""))
          (pyLower (hosp.hospitalName.getD "")))

/-- tools.py `doctor_filter` (lines 330-392): each guard block either returns
`False` or falls through, so the predicate is the conjunction of the five
guards. -/
def doctor_filter (q : DQuery) (d : Doctor) : Bool :=
  doctor_specialty_ok q d && doctor_department_ok q d && doctor_name_ok q d &&
    doctor_city_ok q d && doctor_hospital_ok q d

/-- tools.py `doctor_search_tool`: fetch the full doctor set, filter, truncate
to `top_n`; a failed fetch returns an error string instead. -/
def doctor_search_tool (env : Env) (q : DQuery) : Except String (List Doctor) :=
  match env.allDoctors with
  | .error s => .error ("Error: Failed to fetch doctors. Status: " ++ toString s)
  | .ok ds => .ok (pySlice (ds.filter (doctor_filter q)) q.top_n)

/-! ## tools.py `get_tests_by_hospital_name_or_id` (lines 233-258) and
`get_hospital_feedbacks` (lines 260-305) -/

/-- tools.py `get_tests_by_hospital_tool`.  The result is `.ok` for a string
the Python function returns and `.error` for an uncaught Python exception:
this function has no try/except, so a failing all-hospitals fetch (the
unchecked `.json()`) or an empty hospital list (rapidfuzz returns `None` and
`match[1]` raises) propagates. -/
def get_tests_by_hospital_tool (env : Env) (hospitalId : Option Int)
    (hospitalName : Option String) : Except String String :=
  if hospitalId.isNone && hospitalName.isNone then
    .ok "Error: Either hospitalId or hospitalName must be provided "
  else
    match hospitalId with
    | some i =>
      match env.testsByHospitalText i with
      | .ok t => .ok t
      | .error s => .ok ("Error: " ++ toString s)
    | none =>
      let nm := hospitalName.getD ""
      match env.allHospitals with
      | .error s => .error ("request failed or body was not JSON, status " ++ toString s)
      | .ok hs =>
        match extractOne nm (hs.map (·.name)) with
        | none => .error "TypeError: cannot unpack None"
        | some (best, score) =>
          if score < 80 then .ok ("Error: No hospital found matching \x27" ++ nm ++ "\x27")
          else
            match hs.find? fun h => decide (h.name = best) with
            | none => .ok ("Error: No hospital found matching \x27" ++ nm ++ "\x27")
            | some h =>
              match env.testsByHospitalText h.id with
              | .ok t => .ok t
              | .error s => .ok ("Error: " ++ toString s)

/-- tools.py `get_hospital_feedbacks_tool`.  The whole body runs inside
try/except, so every modelled exception degrades to an `"Error: ..."` string
and the function never raises (always `.ok`); the all-hospitals fetch status
is checked here, unlike in `get_tests_by_hospital_tool`. -/
def get_hospital_feedbacks_tool (env : Env) (hospitalId : Option Int)
    (hospitalName : Option String) : Except String String :=
  if hospitalId.isNone && hospitalName.isNone then
    .ok "Error: Either hospitalId or hospitalName must be provided"
  else
    match hospitalId with
    | some i =>
      match env.feedbacksByHospitalText i with
      | .ok t => .ok t
      | .error s => .ok ("Error: Failed to fetch feedbacks. Status: " ++ toString s)
    | none =>
      let nm := hospitalName.getD ""
      match env.allHospitals with
      | .error s => .ok ("Error: Failed to fetch hospitals list. Status: " ++ toString s)
      | .ok hs =>
        match extractOne nm (hs.map (·.name)) with
        | none => .ok "Error: cannot unpack None"
        | some (best, score) =>
          if score < 80 then .ok ("Error: No hospital found matching \x27" ++ nm ++ "\x27")
          else
            match hs.find? fun h => decide (h.name = best) with
            | none => .ok ("Error: No hospital found matching \x27" ++ nm ++ "\x27")
            | some h =>
              match env.feedbacksByHospitalText h.id with
              | .ok t => .ok t
              | .error s => .ok ("Error: Failed to fetch feedbacks. Status: " ++ toString s)

/-! ## main.py chat endpoint tool loop (lines 126-147) -/

/-- A capability request carried by a model response (`tool_call`): a name and
an opaque argument payload. -/
structure ToolCall where
  name : String
  args : String
deriving DecidableEq, Repr

/-- Conversation message variants the loop manipulates. -/
inductive Msg where
  | system (content : String)
  | human (content : String)
  | ai (content : String) (tool_calls : List ToolCall)
  | tool (content : String) (call : ToolCall)
deriving DecidableEq, Repr

/-- Whether a message is a ToolResult message. -/
def Msg.isToolResult : Msg → Bool
  | .tool _ _ => true
  | _ => false

/-- One model response: its text and the capability requests it carries. -/
structure AIResp where
  content : String
  tool_calls : List ToolCall
deriving DecidableEq, Repr

/-- The four tool handlers bound in main.py; each maps a tool call to the
ToolResult message `invoke` produces. -/
structure HandlerSet where
  hospital_search : ToolCall → Msg
  get_test_by_id : ToolCall → Msg
  get_tests_by_type : ToolCall → Msg
  get_tests_by_hospital_name_or_id : ToolCall → Msg

/-- main.py `tool_dict` (lines 132-137): the capability registry, keyed by the
four registered names.  `get_hospital_feedbacks` and `doctor_search` are not
registered. -/
def tool_dict (hs : HandlerSet) (name : String) : Option (ToolCall → Msg) :=
  if name = "hospital_search" then some hs.hospital_search
  else if name = "get_test_by_id" then some hs.get_test_by_id
  else if name = "get_tests_by_type" then some hs.get_tests_by_type
  else if name = "get_tests_by_hospital_name_or_id" then some hs.get_tests_by_hospital_name_or_id
  else none

/-- Execution of one round's tool calls (main.py lines 139-144): each call's
name is lowercased and looked up in the registry; a recognized call appends
the handler's ToolResult message, an unrecognized one is skipped. -/
def execCalls (hs : HandlerSet) (calls : List ToolCall) : List Msg :=
  calls.filterMap fun tc => (tool_dict hs (pyLower tc.name)).map fun f => f tc

/-- main.py tool-call loop (lines 126-147).  The model is a black box invoked
once per round; its successive responses are modelled as the script `resps`,
consumed one response per invocation.  Each round appends the AI message; a
response with no tool calls ends the loop, otherwise the round's calls are
executed in order, their ToolResult messages appended, and the model is
invoked again.  (An exhausted script would mean the black box never settles;
the claims below only concern scripts that end in a call-free response.) -/
def chat_loop (hs : HandlerSet) : List AIResp → List Msg → List Msg
  | [], msgs => msgs
  | r :: rest, msgs =>
    let msgs2 := msgs ++ [Msg.ai r.content r.tool_calls]
    if r.tool_calls.isEmpty then msgs2
    else chat_loop hs rest (msgs2 ++ execCalls hs r.tool_calls)

/-! ## Concrete fixtures used to instantiate the theorems below -/

/-- Arbitrary concrete double model (no theorem depends on its values). -/
def trivM : TrigModel :=
  { sin := fun _ => 0, cos := fun _ => 0, atan2 := fun _ _ => 0, sqrt := fun _ => 0, pi := 0 }

/-- Fixture hospital with identifier 1. -/
def exH1 : Hospital := { id := 1, name := "Alpha Hospital" }

/-- Fixture hospital with identifier 2. -/
def exH2 : Hospital := { id := 2, name := "Beta Hospital" }

/-- Fixture hospital with the falsy identifier 0. -/
def exH0 : Hospital := { id := 0, name := "Zero Hospital" }

/-- Fixture hospital carrying a zone id. -/
def exHZone : Hospital :=
  { id := 3, name := "Gamma Hospital", locationResponse := some { zoneId := some 5 } }

/-- Fixture hospital carrying an ICU count. -/
def exHIcu : Hospital := { id := 4, name := "Delta Hospital", icus := some 3 }

/-- Environment in which every fetch fails. -/
def envFail : Env :=
  { testsByType := fun _ => .error 500
    hospitalsByCostRange := fun _ => .error 500
    hospitalsByType := fun _ => .error 500
    allHospitals := .error 500
    feedbacksByHospital := fun _ => .error 500
    testsByHospitalText := fun _ => .error 500
    feedbacksByHospitalText := fun _ => .error 500
    allDoctors := .error 500 }

/-- Environment whose all-hospitals fetch returns `[exH2, exH1]` (identifier 2
first) and whose every other fetch fails. -/
def exEnvC1 : Env := { envFail with allHospitals := .ok [exH2, exH1] }

/-- Environment for the intersection witness: the LOW cost range fetch yields
`[exH1]`, the PUBLIC hospital type fetch yields `[exH2]` (disjoint ids). -/
def exEnvC2 : Env :=
  { envFail with
    hospitalsByCostRange := fun v => if v = "LOW" then .ok [exH1] else .error 404
    hospitalsByType := fun v => if v = "PUBLIC" then .ok [exH2] else .error 404 }

/-- Query supplying two category filters whose fetched sets are disjoint. -/
def exQC2 : HQuery := { cost_ranges := some ["LOW"], hospital_types := some ["PUBLIC"] }

/-- Query whose only category filter normalizes to no token at all. -/
def exQC3 : HQuery := { test_types := some ["QQQQ"] }

/-- Query supplying the falsy zone id 0. -/
def exQZone : HQuery := { zone_id := some 0 }

/-- Query supplying an ICU minimum of 1. -/
def exQIcu : HQuery := { icu_min := some 1 }

/-- Environment in which hospital 0 survives and has one feedback entry with
rating 5. -/
def exEnvC5 : Env :=
  { envFail with
    allHospitals := .ok [exH0]
    feedbacksByHospital := fun i => if i = 0 then .ok [{ rating := some 5 }] else .error 404 }

/-- Environment in which hospital 1 has feedback entries with ratings 5 and 2
and one null rating. -/
def exEnvC5w : Env :=
  { envFail with
    allHospitals := .ok [exH1]
    feedbacksByHospital := fun i =>
      if i = 1 then .ok [{ rating := some 5 }, { rating := none }, { rating := some 2 }]
      else .error 404 }

/-- Concrete handler set: each of the four registered tools turns a call into
a ToolResult message. -/
def exHS : HandlerSet :=
  { hospital_search := fun tc => .tool "hospital result" tc
    get_test_by_id := fun tc => .tool "test result" tc
    get_tests_by_type := fun tc => .tool "tests by type result" tc
    get_tests_by_hospital_name_or_id := fun tc => .tool "tests by hospital result" tc }

/-- Fixture doctor matching cardiology in Dhaka. -/
def exDoc1 : Doctor :=
  { name := some "Dr. Smith"
    specialties := some ["Cardiology"]
    departmentResponse := some { name := some "Cardiology Department" }
    locationResponse := some { city := some "Dhaka" }
    doctorHospitals := some [{ hospitalName := some "Alpha Hospital" }] }

/-- Fixture doctor matching dermatology. -/
def exDoc2 : Doctor :=
  { name := some "Dr. Jones"
    specialties := some ["Dermatology"]
    departmentResponse := some { name := some "Dermatology Department" }
    locationResponse := some { city := some "Khulna" }
    doctorHospitals := some [{ hospitalName := some "Beta Hospital" }] }

/-- Environment whose doctor fetch yields the two fixture doctors. -/
def exEnvC8 : Env := { envFail with allDoctors := .ok [exDoc1, exDoc2] }

/-- Doctor query with a misspelled specialty. -/
def exQC8 : DQuery := { specialties := some ["Cardiolgy"] }

/-- Environment whose all-hospitals fetch yields the fixture hospital. -/
def exEnvC9 : Env := { envFail with allHospitals := .ok [exH1] }

/-- Environment in which the BLOOD test-type fetch fails but the all-hospitals
fetch succeeds. -/
def exEnvC10 : Env := { envFail with allHospitals := .ok [exH1] }

/-- Query supplying one test-type filter (which normalizes to BLOOD). -/
def exQC10 : HQuery := { test_types := some ["BLOOD"] }

/-! ## Helper lemmas: the fuzzy matcher -/

/-- Invariant of the `extractOne` scan: starting from a champion `b` carrying
its own score, the result is the champion or a later choice, carries its own
score, and its score dominates the start champion and every scanned choice. -/
theorem extractGo_spec (q : String) :
    ∀ (cs : List String) (b : String),
      ((extractGo q b (ratioQ q b) cs).1 = b ∨ (extractGo q b (ratioQ q b) cs).1 ∈ cs) ∧
      (extractGo q b (ratioQ q b) cs).2 = ratioQ q (extractGo q b (ratioQ q b) cs).1 ∧
      ratioQ q b ≤ (extractGo q b (ratioQ q b) cs).2 ∧
      ∀ c ∈ cs, ratioQ q c ≤ (extractGo q b (ratioQ q b) cs).2 := by
  intro cs
  induction cs with
  | nil =>
    intro b
    exact ⟨Or.inl rfl, rfl, le_refl _, by simp⟩
  | cons c cs ih =>
    intro b
    by_cases hlt : ratioQ q b < ratioQ q c
    · have hgo : extractGo q b (ratioQ q b) (c :: cs) = extractGo q c (ratioQ q c) cs := by
        simp [extractGo, hlt]
      obtain ⟨hmem, hsc, hge, hall⟩ := ih c
      refine ⟨?_, ?_, ?_, ?_⟩
      · rw [hgo]
        rcases hmem with h | h
        · exact Or.inr (by simp [h])
        · exact Or.inr (by simp [h])
      · rw [hgo]; exact hsc
      · rw [hgo]; exact le_trans (le_of_lt hlt) hge
      · rw [hgo]
        intro c' hc'
        rcases List.mem_cons.mp hc' with rfl | h
        · exact hge
        · exact hall c' h
    · have hgo : extractGo q b (ratioQ q b) (c :: cs) = extractGo q b (ratioQ q b) cs := by
        simp [extractGo, hlt]
      obtain ⟨hmem, hsc, hge, hall⟩ := ih b
      refine ⟨?_, ?_, ?_, ?_⟩
      · rw [hgo]
        rcases hmem with h | h
        · exact Or.inl h
        · exact Or.inr (by simp [h])
      · rw [hgo]; exact hsc
      · rw [hgo]; exact hge
      · rw [hgo]
        intro c' hc'
        rcases List.mem_cons.mp hc' with rfl | h
        · exact le_trans (le_of_not_lt hlt) hge
        · exact hall c' h

/-- The best fuzzy match belongs to the choices, carries its own score, and
its score dominates every choice's score. -/
theorem extractOne_spec (q : String) (cs : List String) (b : String) (s : ℚ)
    (h : extractOne q cs = some (b, s)) :
    b ∈ cs ∧ s = ratioQ q b ∧ ∀ c ∈ cs, ratioQ q c ≤ s := by
  cases cs with
  | nil => simp [extractOne] at h
  | cons c cs =>
    have hres : extractGo q c (ratioQ q c) cs = (b, s) := by
      simpa [extractOne] using h
    obtain ⟨hmem, hsc, hge, hall⟩ := extractGo_spec q cs c
    rw [hres] at hmem hsc hge hall
    refine ⟨?_, hsc, ?_⟩
    · rcases hmem with h | h
      · exact h ▸ List.mem_cons_self c cs
      · exact List.mem_cons_of_mem c h
    · intro c' hc'
      rcases List.mem_cons.mp hc' with rfl | h
      · exact hge
      · exact hall c' h

/-- `extractOne` returns `none` exactly on an empty choice list. -/
theorem extractOne_eq_none (q : String) (cs : List String) :
    extractOne q cs = none ↔ cs = [] := by
  cases cs <;> simp [extractOne]

/-- A successful enum normalization returns a canonical value, scoring at
least 80, that no canonical value strictly beats. -/
theorem fuzzy_enum_match_some (v : String) (cs : List String) (m : String)
    (h : fuzzy_enum_match v cs = some m) :
    m ∈ cs ∧ 80 ≤ ratioQ v m ∧ ∀ c ∈ cs, ratioQ v c ≤ ratioQ v m := by
  unfold fuzzy_enum_match at h
  cases he : extractOne v cs with
  | none => rw [he] at h; exact absurd h (by simp)
  | some bs =>
    obtain ⟨b, s⟩ := bs
    rw [he] at h
    by_cases hth : 80 ≤ s
    · simp [hth] at h
      obtain ⟨hmem, hsc, hall⟩ := extractOne_spec v cs b s he
      subst h
      exact ⟨hmem, hsc ▸ hth, fun c hc => hsc ▸ hall c hc⟩
    · simp [hth] at h

/-- A failed enum normalization means no canonical value scores at least 80. -/
theorem fuzzy_enum_match_none (v : String) (cs : List String)
    (h : fuzzy_enum_match v cs = none) :
    ∀ c ∈ cs, ratioQ v c < 80 := by
  unfold fuzzy_enum_match at h
  cases he : extractOne v cs with
  | none =>
    rw [(extractOne_eq_none v cs).mp he]
    simp
  | some bs =>
    obtain ⟨b, s⟩ := bs
    rw [he] at h
    by_cases hth : 80 ≤ s
    · simp [hth] at h
    · obtain ⟨hmem, hsc, hall⟩ := extractOne_spec v cs b s he
      intro c hc
      exact lt_of_le_of_lt (hall c hc) (lt_of_not_le hth)

/-! ## Helper lemmas: Python containers and the identifier intersection -/

/-- Membership is invariant under the set-iteration model. -/
theorem mem_pySetAsc (i : Int) (xs : List Int) : i ∈ pySetAsc xs ↔ i ∈ xs := by
  simp [pySetAsc, List.mem_insertionSort, List.mem_dedup]

/-- Every record produced by the structural engine occurs in its input. -/
theorem pyDictValuesGo_subset :
    ∀ (fuel : Nat) (l : List Hospital), l.length ≤ fuel →
      ∀ g ∈ pyDictValuesGo fuel l, g ∈ l := by
  intro fuel
  induction fuel with
  | zero =>
    intro l hl g hg
    cases l with
    | nil => simp [pyDictValuesGo] at hg
    | cons h t => simp at hl
  | succ n ih =>
    intro l hl g hg
    cases l with
    | nil => simp [pyDictValuesGo] at hg
    | cons h t =>
      simp only [pyDictValuesGo] at hg
      rcases List.mem_cons.mp hg with rfl | hg
      · cases hf : ((h :: t).reverse.find? fun g => decide (g.id = h.id)) with
        | none => simp [hf]
        | some g0 =>
          simp only [hf, Option.getD_some]
          exact List.mem_reverse.mp (List.mem_of_find?_eq_some hf)
      · have hlen : (t.filter fun g => decide (g.id ≠ h.id)).length ≤ n :=
          le_trans (t.length_filter_le _) (Nat.le_of_succ_le_succ hl)
        exact List.mem_cons_of_mem h (List.mem_of_mem_filter (ih _ hlen g hg))

/-- Every record produced by the dict-comprehension model occurs in the input
list. -/
theorem pyDictValues_subset (l : List Hospital) : ∀ g ∈ pyDictValues l, g ∈ l :=
  pyDictValuesGo_subset l.length l (le_refl _)

/-- An identifier occurs among the engine values exactly when it occurs in
the input list. -/
theorem pyDictValuesGo_mem_id :
    ∀ (fuel : Nat) (l : List Hospital), l.length ≤ fuel → ∀ i : Int,
      ((∃ g, g ∈ pyDictValuesGo fuel l ∧ g.id = i) ↔ ∃ g, g ∈ l ∧ g.id = i) := by
  intro fuel
  induction fuel with
  | zero =>
    intro l hl i
    cases l with
    | nil => simp [pyDictValuesGo]
    | cons h t => simp at hl
  | succ n ih =>
    intro l hl i
    cases l with
    | nil => simp [pyDictValuesGo]
    | cons h t =>
      have hlen : (t.filter fun g => decide (g.id ≠ h.id)).length ≤ n :=
        le_trans (t.length_filter_le _) (Nat.le_of_succ_le_succ hl)
      constructor
      · rintro ⟨g, hg, rfl⟩
        exact ⟨g, pyDictValuesGo_subset (n + 1) (h :: t) hl g hg, rfl⟩
      · rintro ⟨g, hg, rfl⟩
        by_cases hid : g.id = h.id
        · refine ⟨((h :: t).reverse.find? fun g => decide (g.id = h.id)).getD h, ?_, ?_⟩
          · simp only [pyDictValuesGo]
            exact List.mem_cons_self _ _
          · cases hf : ((h :: t).reverse.find? fun g => decide (g.id = h.id)) with
            | none => simp [hf, hid]
            | some g0 =>
              have := List.find?_some hf
              simp only [decide_eq_true_eq] at this
              simp [hf, this, hid]
        · have hgt : g ∈ t := by
            rcases List.mem_cons.mp hg with rfl | hgt
            · exact absurd rfl hid
            · exact hgt
          have hgf : g ∈ t.filter fun g => decide (g.id ≠ h.id) := by
            refine List.mem_filter.mpr ⟨hgt, by simpa using hid⟩
          obtain ⟨g2, hg2, hid2⟩ := (ih _ hlen g.id).mpr ⟨g, hgf, rfl⟩
          refine ⟨g2, ?_, hid2⟩
          simp only [pyDictValuesGo]
          exact List.mem_cons_of_mem _ hg2

/-- An identifier occurs among the dict-comprehension values exactly when it
occurs in the input list. -/
theorem pyDictValues_mem_id (l : List Hospital) (i : Int) :
    (∃ g, g ∈ pyDictValues l ∧ g.id = i) ↔ ∃ g, g ∈ l ∧ g.id = i :=
  pyDictValuesGo_mem_id l.length l (le_refl _) i

/-- The engine deduplicates: its identifiers are pairwise distinct. -/
theorem pyDictValuesGo_nodup :
    ∀ (fuel : Nat) (l : List Hospital), l.length ≤ fuel →
      ((pyDictValuesGo fuel l).map Hospital.id).Nodup := by
  intro fuel
  induction fuel with
  | zero =>
    intro l hl
    cases l with
    | nil => simp [pyDictValuesGo]
    | cons h t => simp at hl
  | succ n ih =>
    intro l hl
    cases l with
    | nil => simp [pyDictValuesGo]
    | cons h t =>
      have hlen : (t.filter fun g => decide (g.id ≠ h.id)).length ≤ n :=
        le_trans (t.length_filter_le _) (Nat.le_of_succ_le_succ hl)
      simp only [pyDictValuesGo, List.map_cons, List.nodup_cons]
      constructor
      · intro hmem
        obtain ⟨g, hg, hgid⟩ := List.mem_map.mp hmem
        have hsub := pyDictValuesGo_subset n _ hlen g hg
        have hne : g.id ≠ h.id := by
          have := (List.mem_filter.mp hsub).2
          simpa using this
        have hhead :
            (((h :: t).reverse.find? fun g => decide (g.id = h.id)).getD h).id = h.id := by
          cases hf : ((h :: t).reverse.find? fun g => decide (g.id = h.id)) with
          | none => simp [hf]
          | some g0 =>
            have := List.find?_some hf
            simp only [decide_eq_true_eq] at this
            simp [hf, this]
        rw [hhead] at hgid
        exact hne hgid
      · exact ih _ hlen

/-- The dict-comprehension model deduplicates: its identifiers are pairwise
distinct. -/
theorem pyDictValues_nodup (l : List Hospital) :
    ((pyDictValues l).map Hospital.id).Nodup :=
  pyDictValuesGo_nodup l.length l (le_refl _)

/-- Candidate-pool membership: a record of identifier `i` survives
`intersect_hospitals` exactly when some input list is non-empty and every
non-empty input list contains a record of identifier `i`. -/
theorem mem_intersect_hospitals (lists : List (List Hospital)) (i : Int) :
    (∃ h, h ∈ intersect_hospitals lists ∧ h.id = i) ↔
      ((∃ l, l ∈ lists ∧ l ≠ []) ∧ ∀ l ∈ lists, l ≠ [] → ∃ g, g ∈ l ∧ g.id = i) := by
  unfold intersect_hospitals
  by_cases hE : lists.isEmpty
  · rw [List.isEmpty_iff] at hE
    subst hE
    simp
  · simp only [hE, Bool.false_eq_true, if_false]
    cases hxs : lists.filter (fun l => !l.isEmpty) with
    | nil =>
      simp only [hxs, List.map_nil]
      have hall : ∀ l ∈ lists, l = [] := by
        intro l hl
        by_contra hne
        have : l ∈ lists.filter (fun l => !l.isEmpty) :=
          List.mem_filter.mpr ⟨hl, by simpa [List.isEmpty_iff] using hne⟩
        rw [hxs] at this
        exact absurd this (List.not_mem_nil l)
      constructor
      · rintro ⟨h, hh, -⟩
        exact absurd hh (List.not_mem_nil h)
      · rintro ⟨⟨l, hl, hlne⟩, -⟩
        exact absurd (hall l hl) hlne
    | cons l0 ls =>
      have hl0 : l0 ∈ lists ∧ l0 ≠ [] := by
        have : l0 ∈ lists.filter (fun l => !l.isEmpty) := by
          rw [hxs]; exact List.mem_cons_self _ _
        have h2 := List.mem_filter.mp this
        exact ⟨h2.1, by simpa [List.isEmpty_iff] using h2.2⟩
      simp only [hxs, List.map_cons]
      constructor
      · rintro ⟨h, hh, rfl⟩
        obtain ⟨j, hj, hfind⟩ := List.mem_filterMap.mp hh
        have hjid : h.id = j := by simpa using List.find?_some hfind
        rw [← hjid] at hj
        have hj2 := (mem_pySetAsc _ _).mp hj
        have hj3 := List.mem_filter.mp hj2
        have hs0 : h.id ∈ l0.map Hospital.id := hj3.1
        have hrest : ∀ s ∈ ls.map (fun l => l.map Hospital.id), h.id ∈ s := by
          intro s hs
          have := List.all_eq_true.mp hj3.2 s hs
          simpa using this
        refine ⟨⟨l0, hl0.1, hl0.2⟩, ?_⟩
        intro l hl hlne
        have hlf : l ∈ l0 :: ls := by
          rw [← hxs]
          exact List.mem_filter.mpr ⟨hl, by simpa [List.isEmpty_iff] using hlne⟩
        rcases List.mem_cons.mp hlf with rfl | hlls
        · obtain ⟨g, hg, hgid⟩ := List.mem_map.mp hs0
          exact ⟨g, hg, hgid⟩
        · have : h.id ∈ l.map Hospital.id :=
            hrest (l.map Hospital.id) (List.mem_map_of_mem _ hlls)
          obtain ⟨g, hg, hgid⟩ := List.mem_map.mp this
          exact ⟨g, hg, hgid⟩
      · rintro ⟨-, hall⟩
        obtain ⟨g0, hg0, hg0id⟩ := hall l0 hl0.1 hl0.2
        have hcommon : i ∈ pySetAsc ((l0.map Hospital.id).filter
            fun i => (ls.map fun l => l.map Hospital.id).all fun s => decide (i ∈ s)) := by
          rw [mem_pySetAsc]
          refine List.mem_filter.mpr ⟨?_, ?_⟩
          · exact hg0id ▸ List.mem_map_of_mem _ hg0
          · rw [List.all_eq_true]
            intro s hs
            obtain ⟨l, hlls, rfl⟩ := List.mem_map.mp hs
            have hlmem : l ∈ lists ∧ l ≠ [] := by
              have : l ∈ l0 :: ls := List.mem_cons_of_mem _ hlls
              rw [← hxs] at this
              have h2 := List.mem_filter.mp this
              exact ⟨h2.1, by simpa [List.isEmpty_iff] using h2.2⟩
            obtain ⟨g, hg, hgid⟩ := hall l hlmem.1 hlmem.2
            simp only [decide_eq_true_eq, List.mem_map]
            exact ⟨g, hg, hgid⟩
        have hflat : g0 ∈ lists.flatten.reverse :=
          List.mem_reverse.mpr (List.mem_flatten.mpr ⟨l0, hl0.1, hg0⟩)
        have hfind : (lists.flatten.reverse.find? fun h => decide (h.id = i)).isSome :=
          List.find?_isSome.mpr ⟨g0, hflat, by simpa using hg0id⟩
        obtain ⟨h, hfh⟩ := Option.isSome_iff_exists.mp hfind
        refine ⟨h, List.mem_filterMap.mpr ⟨i, hcommon, hfh⟩, by simpa using List.find?_some hfh⟩

/-- Every record of the candidate pool is one of the fetched records. -/
theorem intersect_hospitals_subset (lists : List (List Hospital)) :
    ∀ h ∈ intersect_hospitals lists, h ∈ lists.flatten := by
  unfold intersect_hospitals
  by_cases hE : lists.isEmpty
  · simp [hE]
  · simp only [hE, Bool.false_eq_true, if_false]
    cases hxs : lists.filter (fun l => !l.isEmpty) with
    | nil => simp [hxs]
    | cons l0 ls =>
      simp only [hxs, List.map_cons]
      intro h hh
      obtain ⟨j, hj, hfind⟩ := List.mem_filterMap.mp hh
      exact List.mem_reverse.mp (List.mem_of_find?_eq_some hfind)

/-! ## Helper lemmas: the stable descending sort -/

instance : IsTrans RankedHospital (fun a b => b.averageRating ≤ a.averageRating) :=
  ⟨fun _ _ _ hab hbc => le_trans hbc hab⟩

instance : IsTotal RankedHospital (fun a b => b.averageRating ≤ a.averageRating) :=
  ⟨fun a b => le_total b.averageRating a.averageRating⟩

/-- Inserting a record into a list places it before every strictly
lower-rated record it passes, so the records of any fixed rating gain the
inserted record at the front when it carries that rating and are untouched
otherwise. -/
theorem filter_orderedInsert_rating (x : RankedHospital) (v : ℚ) :
    ∀ l : List RankedHospital,
      (List.orderedInsert (fun a b => b.averageRating ≤ a.averageRating) x l).filter
        (fun a => decide (a.averageRating = v)) =
      if x.averageRating = v then
        x :: l.filter (fun a => decide (a.averageRating = v))
      else l.filter (fun a => decide (a.averageRating = v)) := by
  intro l
  induction l with
  | nil =>
    simp only [List.orderedInsert, List.filter]
    by_cases hx : x.averageRating = v <;> simp [hx]
  | cons y ys ih =>
    by_cases hr : y.averageRating ≤ x.averageRating
    · simp only [List.orderedInsert, if_pos hr]
      by_cases hx : x.averageRating = v <;> simp [List.filter_cons, hx]
    · simp only [List.orderedInsert, if_neg hr]
      by_cases hx : x.averageRating = v
      · have hy : ¬(y.averageRating = v) := by
          intro hy
          exact hr (le_of_eq (by rw [hy, hx]))
        simp [List.filter_cons, hy, ih, hx]
      · simp [List.filter_cons, ih, hx]

/-- Stability of the sort model: for every rating value, the records carrying
that rating appear in the sorted list exactly as they appear in the input. -/
theorem filter_pySortByRatingDesc (v : ℚ) :
    ∀ l : List RankedHospital,
      (pySortByRatingDesc l).filter (fun a => decide (a.averageRating = v)) =
        l.filter (fun a => decide (a.averageRating = v)) := by
  intro l
  induction l with
  | nil => rfl
  | cons x xs ih =>
    show (List.orderedInsert _ x (List.insertionSort _ xs)).filter _ = _
    rw [filter_orderedInsert_rating]
    by_cases hx : x.averageRating = v
    · rw [if_pos hx]
      show _ = List.filter _ (x :: xs)
      rw [List.filter_cons]
      simp only [hx]
      simpa using congrArg (x :: ·) ih
    · rw [if_neg hx]
      show _ = List.filter _ (x :: xs)
      rw [List.filter_cons]
      simp only [hx]
      simpa using ih

/-- The sort model is a permutation of its input. -/
theorem perm_pySortByRatingDesc (l : List RankedHospital) :
    (pySortByRatingDesc l).Perm l :=
  List.perm_insertionSort _ l

/-- The sort model is sorted descending by average rating. -/
theorem sorted_pySortByRatingDesc (l : List RankedHospital) :
    (pySortByRatingDesc l).Pairwise (fun a b => b.averageRating ≤ a.averageRating) :=
  List.sorted_insertionSort _ l

/-- Truncation bound of the slice model at a natural bound. -/
theorem length_pySlice_le {α : Type} (l : List α) (n : Nat) :
    (pySlice l (some (n : Int))).length ≤ n := by
  simp [pySlice]

/-! ## Helper lemmas: the tool-orchestration loop -/

/-- Trace equation of the loop: for a script of tool-bearing rounds followed
by one call-free response, the final history is the initial history, then per
round the AI message followed by the ToolResult messages of its executed
calls in order, then the settling AI message. -/
theorem chat_loop_script (hs : HandlerSet) :
    ∀ (rounds : List AIResp) (final : AIResp) (msgs : List Msg),
      (∀ r ∈ rounds, r.tool_calls ≠ []) → final.tool_calls = [] →
      chat_loop hs (rounds ++ [final]) msgs =
        msgs ++
          (rounds.flatMap fun r => Msg.ai r.content r.tool_calls :: execCalls hs r.tool_calls) ++
          [Msg.ai final.content []] := by
  intro rounds
  induction rounds with
  | nil =>
    intro final msgs _ hf
    simp [chat_loop, hf]
  | cons r rs ih =>
    intro final msgs hr hf
    have hrne : r.tool_calls ≠ [] := hr r (List.mem_cons_self r rs)
    have hne : r.tool_calls.isEmpty = false := by
      simpa [List.isEmpty_iff] using hrne
    show chat_loop hs (r :: (rs ++ [final])) msgs = _
    rw [chat_loop]
    simp only [hne, Bool.false_eq_true, if_false]
    rw [ih final _ (fun x hx => hr x (List.mem_cons_of_mem r hx)) hf]
    simp [List.flatMap_cons, List.append_assoc]

/-- Counting ToolResults over the per-round blocks: when every round carries
exactly one recognized call whose handler yields a ToolResult, each block
contributes exactly one ToolResult message. -/
theorem countP_round_blocks (hs : HandlerSet)
    (hwf : ∀ nm f, tool_dict hs nm = some f → ∀ tc, (f tc).isToolResult = true) :
    ∀ rounds : List AIResp,
      (∀ r ∈ rounds, ∃ tc, r.tool_calls = [tc] ∧ (tool_dict hs (pyLower tc.name)).isSome) →
      (rounds.flatMap fun r =>
          Msg.ai r.content r.tool_calls :: execCalls hs r.tool_calls).countP Msg.isToolResult =
        rounds.length := by
  intro rounds
  induction rounds with
  | nil => simp
  | cons r rs ih =>
    intro hr
    obtain ⟨tc, hcalls, hsome⟩ := hr r (List.mem_cons_self r rs)
    obtain ⟨f, hf⟩ := Option.isSome_iff_exists.mp hsome
    have hexec : execCalls hs r.tool_calls = [f tc] := by
      simp [execCalls, hcalls, hf]
    rw [List.flatMap_cons, List.countP_append]
    rw [ih (fun x hx => hr x (List.mem_cons_of_mem r hx))]
    have h1 : (f tc).isToolResult = true := hwf _ _ hf tc
    have h2 : (Msg.ai r.content r.tool_calls).isToolResult = false := rfl
    simp [hexec, List.countP_cons, h1, h2, Nat.add_comm]

/-- C6.  The orchestration loop settles exactly on a call-free model
response: the trace equation shows each round appends its AI message followed
by one ToolResult per executed request in the order listed before the next
model invocation; a script consisting of a single call-free response settles
after that single model call; the settled history ends with that response
(whose text the endpoint returns); and N rounds of one recognized call each
append exactly N ToolResult messages.  The hypothesis `hwf` is the langchain
contract that a registered tool's `invoke` yields a ToolResult message. -/
theorem claim_C6_loop (hs : HandlerSet)
    (hwf : ∀ nm f, tool_dict hs nm = some f → ∀ tc, (f tc).isToolResult = true)
    (rounds : List AIResp) (final : AIResp) (msgs : List Msg)
    (hr : ∀ r ∈ rounds, r.tool_calls ≠ []) (hf : final.tool_calls = []) :
    chat_loop hs (rounds ++ [final]) msgs =
        msgs ++
          (rounds.flatMap fun r => Msg.ai r.content r.tool_calls :: execCalls hs r.tool_calls) ++
          [Msg.ai final.content []] ∧
    chat_loop hs [final] msgs = msgs ++ [Msg.ai final.content []] ∧
    (chat_loop hs (rounds ++ [final]) msgs).getLast? = some (Msg.ai final.content []) ∧
    ((∀ r ∈ rounds, ∃ tc, r.tool_calls = [tc] ∧ (tool_dict hs (pyLower tc.name)).isSome) →
      (chat_loop hs (rounds ++ [final]) msgs).countP Msg.isToolResult =
        msgs.countP Msg.isToolResult + rounds.length) := by
  have heq := chat_loop_script hs rounds final msgs hr hf
  refine ⟨heq, ?_, ?_, ?_⟩
  · simpa using chat_loop_script hs [] final msgs (by simp) hf
  · rw [heq]
    exact List.getLast?_concat _
  · intro hone
    rw [heq]
    rw [List.countP_append, List.countP_append]
    rw [countP_round_blocks hs hwf rounds hone]
    simp [Msg.isToolResult]

/-- Witness for C6: one round carrying one recognized `hospital_search` call,
then a call-free response; the loop settles with exactly the AI message, one
ToolResult, and the final AI message, and the ToolResult count is 1. -/
theorem claim_C6_witness :
    chat_loop exHS
        [⟨"one", [⟨"hospital_search", "args"⟩]⟩, ⟨"done", []⟩] [] =
      [Msg.ai "one" [⟨"hospital_search", "args"⟩],
        Msg.tool "hospital result" ⟨"hospital_search", "args"⟩,
        Msg.ai "done" []] ∧
    (chat_loop exHS
        [⟨"one", [⟨"hospital_search", "args"⟩]⟩, ⟨"done", []⟩] []).countP Msg.isToolResult = 1 := by
  have hwf : ∀ nm f, tool_dict exHS nm = some f → ∀ tc, (f tc).isToolResult = true := by
    intro nm f h tc
    unfold tool_dict at h
    split_ifs at h
    all_goals first
      | exact Option.noConfusion h
      | (injection h with h; rw [← h]; rfl)
  obtain ⟨h1, -, -, h4⟩ :=
    claim_C6_loop exHS hwf [⟨"one", [⟨"hospital_search", "args"⟩]⟩] ⟨"done", []⟩ []
      (by simp) rfl
  constructor
  · rw [show ([⟨"one", [⟨"hospital_search", "args"⟩]⟩, ⟨"done", []⟩] : List AIResp) =
        [⟨"one", [⟨"hospital_search", "args"⟩]⟩] ++ [⟨"done", []⟩] from rfl, h1]
    rfl
  · rw [show ([⟨"one", [⟨"hospital_search", "args"⟩]⟩, ⟨"done", []⟩] : List AIResp) =
        [⟨"one", [⟨"hospital_search", "args"⟩]⟩] ++ [⟨"done", []⟩] from rfl,
      h4 (by intro r hr; simp at hr; subst hr; exact ⟨⟨"hospital_search", "args"⟩, rfl, by decide⟩)]
    rfl

/-- C7 (code bug).  The registry of main.py contains handlers for the four
registered capability names (matched after lowercasing, so case-insensitively)
and executes them, appending their ToolResult; but `get_hospital_feedbacks`
and `doctor_search`, although part of the declared capability surface and
defined in tools.py, are absent from the registry, so a model request naming
them is silently skipped: the loop appends no ToolResult and surfaces no
error. -/
theorem claim_C7_registry_gap :
    tool_dict exHS "get_hospital_feedbacks" = none ∧
    tool_dict exHS "doctor_search" = none ∧
    (tool_dict exHS (pyLower "Hospital_Search")).isSome = true ∧
    (tool_dict exHS "get_test_by_id").isSome = true ∧
    (tool_dict exHS "get_tests_by_type").isSome = true ∧
    (tool_dict exHS "get_tests_by_hospital_name_or_id").isSome = true ∧
    execCalls exHS [⟨"HOSPITAL_SEARCH", "a"⟩] =
      [Msg.tool "hospital result" ⟨"HOSPITAL_SEARCH", "a"⟩] ∧
    chat_loop exHS [⟨"calling doctor search", [⟨"doctor_search", "args"⟩]⟩, ⟨"done", []⟩] [] =
      [Msg.ai "calling doctor search" [⟨"doctor_search", "args"⟩], Msg.ai "done" []] := by
  refine ⟨rfl, rfl, rfl, rfl, rfl, rfl, ?_, ?_⟩ <;> rfl

/-! ## Claims C1 and C2: ranking and intersection -/

/-- C1 counterexample.  Hospitals are fetched in the order `[exH2, exH1]`
(identifier 2 first), both end with average rating 0 (a tie), yet the search
returns them as `[exH1, exH2]`: the identifier-intersection stage iterates a
CPython set of identifiers (ascending for these small ids), so the tie is
broken by set order, not by the records' original fetch order as the claim
states. -/
theorem claim_C1_counterexample :
    exEnvC1.allHospitals = .ok [exH2, exH1] ∧
    (annotate exEnvC1 exH2).averageRating = (annotate exEnvC1 exH1).averageRating ∧
    hospital_search_tool trivM exEnvC1 {} =
      [annotate exEnvC1 exH1, annotate exEnvC1 exH2] ∧
    hospital_search_tool trivM exEnvC1 {} ≠
      [annotate exEnvC1 exH2, annotate exEnvC1 exH1] := by
  exact ⟨rfl, rfl, by decide, by decide⟩

/-- C1 (amended).  The returned list is the annotated surviving candidates
sorted in descending order of average rating by a stable sort and truncated
to `top_n` (default 5); ties among equal averages preserve the relative order
of the candidate list produced by the identifier-intersection stage (CPython
set-iteration order over identifiers), not necessarily the original fetch
order.  Conjuncts: the pipeline equation, the sort is a permutation, it is
sorted descending, it is stable (for every rating value the records carrying
it are untouched), truncation bounds the length, and the default `top_n`
is 5. -/
theorem claim_C1_amended (M : TrigModel) (env : Env) (q : HQuery) :
    hospital_search_tool M env q =
        pySlice (pySortByRatingDesc (annotatedSurvivors M env q)) q.top_n ∧
    (pySortByRatingDesc (annotatedSurvivors M env q)).Perm (annotatedSurvivors M env q) ∧
    (pySortByRatingDesc (annotatedSurvivors M env q)).Pairwise
      (fun a b => b.averageRating ≤ a.averageRating) ∧
    (∀ v : ℚ,
      (pySortByRatingDesc (annotatedSurvivors M env q)).filter
          (fun a => decide (a.averageRating = v)) =
        (annotatedSurvivors M env q).filter (fun a => decide (a.averageRating = v))) ∧
    (∀ (l : List RankedHospital) (n : Nat), (pySlice l (some (n : Int))).length ≤ n) ∧
    ({} : HQuery).top_n = some 5 :=
  ⟨rfl, perm_pySortByRatingDesc _, sorted_pySortByRatingDesc _,
    fun v => filter_pySortByRatingDesc v _, length_pySlice_le, rfl⟩

/-- C2.  The candidate pool is the intersection by hospital identifier of the
non-empty per-category sets: (a) identifier `i` occurs in the pool exactly
when some category set is non-empty and every non-empty category set carries
`i`; (b) two non-empty category sets with disjoint identifiers force an empty
pool; (c) with no truthy category filter the pool is the full all-hospitals
set (same records, same identifiers); (d) within one category the per-value
results are unioned and deduplicated by identifier. -/
theorem claim_C2_intersection (env : Env) (q : HQuery) :
    (∀ i : Int,
      (∃ h, h ∈ candidatePool env q ∧ h.id = i) ↔
        ((∃ l, l ∈ candidate_sets env q ∧ l ≠ []) ∧
          ∀ l ∈ candidate_sets env q, l ≠ [] → ∃ g, g ∈ l ∧ g.id = i)) ∧
    (∀ l1 l2, l1 ∈ candidate_sets env q → l2 ∈ candidate_sets env q →
      l1 ≠ [] → l2 ≠ [] →
      (∀ i : Int, (∃ g, g ∈ l1 ∧ g.id = i) → ¬∃ g, g ∈ l2 ∧ g.id = i) →
      candidatePool env q = []) ∧
    ((listTruthy q.test_types = false ∧ listTruthy q.cost_ranges = false ∧
        listTruthy q.hospital_types = false) →
      ∀ hs, env.allHospitals = .ok hs →
        ((∀ h ∈ candidatePool env q, h ∈ hs) ∧
          ∀ i : Int, ((∃ h, h ∈ candidatePool env q ∧ h.id = i) ↔ ∃ g, g ∈ hs ∧ g.id = i))) ∧
    (∀ (lss : List (List Hospital)) (i : Int),
      ((pyDictValues lss.flatten).map Hospital.id).Nodup ∧
      ((∃ g, g ∈ pyDictValues lss.flatten ∧ g.id = i) ↔
        ∃ l, l ∈ lss ∧ ∃ g, g ∈ l ∧ g.id = i)) := by
  refine ⟨fun i => mem_intersect_hospitals _ i, ?_, ?_, ?_⟩
  · intro l1 l2 hl1 hl2 hl1ne hl2ne hdisj
    by_contra hne
    obtain ⟨h, hh⟩ := List.exists_mem_of_ne_nil _ hne
    have hmem := (mem_intersect_hospitals (candidate_sets env q) h.id).mp ⟨h, hh, rfl⟩
    exact hdisj h.id (hmem.2 l1 hl1 hl1ne) (hmem.2 l2 hl2 hl2ne)
  · rintro ⟨ht, hc, hht⟩ hs hall
    have hsets : candidate_sets env q = [hs] := by
      simp [candidate_sets, normalizeCats, ht, hc, hht, hall]
    constructor
    · intro h hh
      have := intersect_hospitals_subset (candidate_sets env q) h hh
      rw [hsets] at this
      simpa using this
    · intro i
      rw [show candidatePool env q = intersect_hospitals [hs] from by rw [candidatePool, hsets],
        mem_intersect_hospitals]
      constructor
      · rintro ⟨hex, hval⟩
        obtain ⟨l, hl, hlne⟩ := hex
        have hlhs : l = hs := by simpa using hl
        rw [hlhs] at hlne
        exact hval hs (by simp) hlne
      · rintro ⟨g, hg, hgid⟩
        have hne : hs ≠ [] := List.ne_nil_of_mem hg
        exact ⟨⟨hs, by simp, hne⟩, fun l hl hlne => by
          have : l = hs := by simpa using hl
          subst this
          exact ⟨g, hg, hgid⟩⟩
  · intro lss i
    refine ⟨pyDictValues_nodup _, ?_⟩
    rw [pyDictValues_mem_id]
    constructor
    · rintro ⟨g, hg, rfl⟩
      obtain ⟨l, hl, hgl⟩ := List.mem_flatten.mp hg
      exact ⟨l, hl, g, hgl, rfl⟩
    · rintro ⟨l, hl, g, hg, rfl⟩
      exact ⟨g, List.mem_flatten.mpr ⟨l, hl, hg⟩, rfl⟩

/-- Witness for C2: with the LOW cost-range fetch yielding `[exH1]` and the
PUBLIC hospital-type fetch yielding `[exH2]` (disjoint identifier sets), the
candidate pool is empty. -/
theorem claim_C2_witness :
    candidate_sets exEnvC2 exQC2 = [[exH1], [exH2]] ∧
    candidatePool exEnvC2 exQC2 = [] := by
  refine ⟨by decide, ?_⟩
  refine (claim_C2_intersection exEnvC2 exQC2).2.1 [exH1] [exH2] (by decide) (by decide)
    (by decide) (by decide) ?_
  rintro i ⟨g, hg, rfl⟩ ⟨g2, hg2, hid2⟩
  have h1 : g = exH1 := by simpa using hg
  have h2 : g2 = exH2 := by simpa using hg2
  subst h1; subst h2
  exact absurd hid2 (by decide)

/-! ## Claim C3: enum normalization -/

/-- A supplied test-type filter whose every token is dropped by fuzzy
normalization leaves the search identical to one with no test-type filter. -/
theorem category_absent_test_types (M : TrigModel) (env : Env) (q : HQuery)
    (ts : List String) (hqt : q.test_types = some ts)
    (hmap : ts.filterMap (fun t => fuzzy_enum_match t valid_test_types) = []) :
    hospital_search_tool M env q = hospital_search_tool M env { q with test_types := none } := by
  have hn1 : listTruthy (normalizeCats q).test_types = false := by
    simp only [normalizeCats, hqt]
    cases hb : listTruthy (some ts) with
    | false => simp [hb]
    | true => simp [hmap, listTruthy]
  have hn2 : listTruthy (normalizeCats { q with test_types := none }).test_types = false := by
    simp [normalizeCats, listTruthy]
  have hsets : candidate_sets env q = candidate_sets env { q with test_types := none } := by
    simp only [candidate_sets, hn1, hn2]
    rfl
  simp only [hospital_search_tool, annotatedSurvivors, survivors, candidatePool]
  rw [hsets]
  rfl

/-- A supplied cost-range filter whose every token is dropped by fuzzy
normalization leaves the search identical to one with no cost-range filter. -/
theorem category_absent_cost_ranges (M : TrigModel) (env : Env) (q : HQuery)
    (cs : List String) (hqt : q.cost_ranges = some cs)
    (hmap : cs.filterMap (fun c => fuzzy_enum_match c valid_cost_ranges) = []) :
    hospital_search_tool M env q = hospital_search_tool M env { q with cost_ranges := none } := by
  have hn1 : listTruthy (normalizeCats q).cost_ranges = false := by
    simp only [normalizeCats, hqt]
    cases hb : listTruthy (some cs) with
    | false => simp [hb]
    | true => simp [hmap, listTruthy]
  have hn2 : listTruthy (normalizeCats { q with cost_ranges := none }).cost_ranges = false := by
    simp [normalizeCats, listTruthy]
  have hsets : candidate_sets env q = candidate_sets env { q with cost_ranges := none } := by
    simp only [candidate_sets, hn1, hn2]
    rfl
  simp only [hospital_search_tool, annotatedSurvivors, survivors, candidatePool]
  rw [hsets]
  rfl

/-- A supplied hospital-type filter whose every token is dropped by fuzzy
normalization leaves the search identical to one with no hospital-type
filter. -/
theorem category_absent_hospital_types (M : TrigModel) (env : Env) (q : HQuery)
    (hsl : List String) (hqt : q.hospital_types = some hsl)
    (hmap : hsl.filterMap (fun h => fuzzy_enum_match h valid_hospital_types) = []) :
    hospital_search_tool M env q =
      hospital_search_tool M env { q with hospital_types := none } := by
  have hn1 : listTruthy (normalizeCats q).hospital_types = false := by
    simp only [normalizeCats, hqt]
    cases hb : listTruthy (some hsl) with
    | false => simp [hb]
    | true => simp [hmap, listTruthy]
  have hn2 :
      listTruthy (normalizeCats { q with hospital_types := none }).hospital_types = false := by
    simp [normalizeCats, listTruthy]
  have hsets : candidate_sets env q = candidate_sets env { q with hospital_types := none } := by
    simp only [candidate_sets, hn1, hn2]
    rfl
  simp only [hospital_search_tool, annotatedSurvivors, survivors, candidatePool]
  rw [hsets]
  rfl

/-- C3.  Token-by-token enum normalization: a token's successful
normalization is the canonical value of the highest fuzzy score, provided
that score is at least 80; a token scoring below 80 against every canonical
value is dropped silently (every surviving token is canonical, never the raw
token); and a category filter whose every token is dropped is treated as
absent: the search result is identical to the search without that filter. -/
theorem claim_C3_normalization :
    (∀ (v : String) (cs : List String) (m : String),
      fuzzy_enum_match v cs = some m →
        m ∈ cs ∧ 80 ≤ ratioQ v m ∧ ∀ c ∈ cs, ratioQ v c ≤ ratioQ v m) ∧
    (∀ (v : String) (cs : List String),
      fuzzy_enum_match v cs = none → ∀ c ∈ cs, ratioQ v c < 80) ∧
    (∀ (ts cs : List String) (m : String),
      m ∈ ts.filterMap (fun t => fuzzy_enum_match t cs) → m ∈ cs) ∧
    (∀ (M : TrigModel) (env : Env) (q : HQuery) (ts : List String),
      q.test_types = some ts →
      ts.filterMap (fun t => fuzzy_enum_match t valid_test_types) = [] →
      hospital_search_tool M env q =
        hospital_search_tool M env { q with test_types := none }) ∧
    (∀ (M : TrigModel) (env : Env) (q : HQuery) (cs : List String),
      q.cost_ranges = some cs →
      cs.filterMap (fun c => fuzzy_enum_match c valid_cost_ranges) = [] →
      hospital_search_tool M env q =
        hospital_search_tool M env { q with cost_ranges := none }) ∧
    (∀ (M : TrigModel) (env : Env) (q : HQuery) (hsl : List String),
      q.hospital_types = some hsl →
      hsl.filterMap (fun h => fuzzy_enum_match h valid_hospital_types) = [] →
      hospital_search_tool M env q =
        hospital_search_tool M env { q with hospital_types := none }) := by
  refine ⟨fuzzy_enum_match_some, fuzzy_enum_match_none, ?_,
    category_absent_test_types, category_absent_cost_ranges, category_absent_hospital_types⟩
  intro ts cs m hm
  obtain ⟨t, -, hsome⟩ := List.mem_filterMap.mp hm
  exact (fuzzy_enum_match_some t cs m hsome).1

/-- Witness for C3: the misspelled token BLOD normalizes to BLOOD (score
800/9, at least 80, and maximal among the canonical test types); the token
QQQQ normalizes to nothing, so the query `exQC3` behaves exactly like the
query without a test-type filter; concretely both return the all-hospitals
record. -/
theorem claim_C3_witness :
    fuzzy_enum_match "BLOD" valid_test_types = some "BLOOD" ∧
    ("BLOOD" ∈ valid_test_types ∧ 80 ≤ ratioQ "BLOD" "BLOOD" ∧
      ∀ c ∈ valid_test_types, ratioQ "BLOD" c ≤ ratioQ "BLOD" "BLOOD") ∧
    fuzzy_enum_match "QQQQ" valid_test_types = none ∧
    hospital_search_tool trivM exEnvC9 exQC3 =
      hospital_search_tool trivM exEnvC9 { exQC3 with test_types := none } ∧
    hospital_search_tool trivM exEnvC9 exQC3 = [annotate exEnvC9 exH1] := by
  refine ⟨by decide, claim_C3_normalization.1 "BLOD" valid_test_types "BLOOD" (by decide),
    by decide, claim_C3_normalization.2.2.2.1 trivM exEnvC9 exQC3 ["QQQQ"] rfl (by decide),
    by decide⟩

/-! ## Claim C4: the scalar/free-text filter -/

/-- ICU guard characterization. -/
theorem hf_icu_ok_iff (q : HQuery) (h : Hospital) :
    hf_icu_ok q h = true ↔ ∀ n, q.icu_min = some n → ∃ k, h.icus = some k ∧ n ≤ k := by
  unfold hf_icu_ok
  cases q.icu_min with
  | none => simp
  | some n =>
    cases h.icus with
    | none => simp
    | some k => simp [not_lt]

/-- City guard characterization. -/
theorem hf_city_ok_iff (q : HQuery) (h : Hospital) :
    hf_city_ok q h = true ↔
      (strTruthy q.city = true →
        strTruthy (h.locationResponse.getD emptyLocation).city = true →
        80 ≤ ratioQ (pyLower (q.city.getD ""))
          (pyLower (((h.locationResponse.getD emptyLocation).city).getD ""))) := by
  unfold hf_city_ok
  cases hq : strTruthy q.city
  · simp [hq]
  · cases hr : strTruthy (h.locationResponse.getD emptyLocation).city
    · simp [hq, hr]
    · simp [hq, hr, not_lt]

/-- Thana guard characterization. -/
theorem hf_thana_ok_iff (q : HQuery) (h : Hospital) :
    hf_thana_ok q h = true ↔
      (strTruthy q.thana = true →
        strTruthy (h.locationResponse.getD emptyLocation).thana = true →
        80 ≤ ratioQ (pyLower (q.thana.getD ""))
          (pyLower (((h.locationResponse.getD emptyLocation).thana).getD ""))) := by
  unfold hf_thana_ok
  cases hq : strTruthy q.thana
  · simp [hq]
  · cases hr : strTruthy (h.locationResponse.getD emptyLocation).thana
    · simp [hq, hr]
    · simp [hq, hr, not_lt]

/-- Post-office guard characterization. -/
theorem hf_po_ok_iff (q : HQuery) (h : Hospital) :
    hf_po_ok q h = true ↔
      (strTruthy q.po = true →
        strTruthy (h.locationResponse.getD emptyLocation).po = true →
        80 ≤ ratioQ (pyLower (q.po.getD ""))
          (pyLower (((h.locationResponse.getD emptyLocation).po).getD ""))) := by
  unfold hf_po_ok
  cases hq : strTruthy q.po
  · simp [hq]
  · cases hr : strTruthy (h.locationResponse.getD emptyLocation).po
    · simp [hq, hr]
    · simp [hq, hr, not_lt]

/-- Zone guard characterization: the equality check runs only for a non-zero
zone id. -/
theorem hf_zone_ok_iff (q : HQuery) (h : Hospital) :
    hf_zone_ok q h = true ↔
      ∀ z, q.zone_id = some z → z ≠ 0 →
        (h.locationResponse.getD emptyLocation).zoneId = some z := by
  unfold hf_zone_ok intTruthy
  cases q.zone_id with
  | none => simp
  | some z =>
    by_cases hz : z = 0
    · subst hz; simp
    · simp [hz]

/-- Hospital-name guard characterization. -/
theorem hf_name_ok_iff (q : HQuery) (h : Hospital) :
    hf_name_ok q h = true ↔
      (strTruthy q.hospital_name = true → h.name ≠ "" →
        80 ≤ ratioQ (pyLower (q.hospital_name.getD "")) (pyLower h.name)) := by
  unfold hf_name_ok
  cases hq : strTruthy q.hospital_name
  · simp [hq]
  · by_cases hn : h.name = ""
    · simp [hq, hn]
    · simp [hq, hn, not_lt]

/-- Geo guard characterization: applied only when all three of latitude,
longitude and radius were passed; both record coordinates must be present and
the haversine distance must not exceed the radius. -/
theorem hf_geo_ok_iff (M : TrigModel) (q : HQuery) (h : Hospital) :
    hf_geo_ok M q h = true ↔
      ∀ la lo r, q.latitude = some la → q.longitude = some lo → q.radius_km = some r →
        ∃ la2 lo2, h.latitude = some la2 ∧ h.longitude = some lo2 ∧
          haversineDist M la lo la2 lo2 ≤ r := by
  unfold hf_geo_ok
  cases hla : q.latitude <;> cases hlo : q.longitude <;> cases hr : q.radius_km <;>
    try simp
  cases h.latitude <;> cases h.longitude <;> simp [not_lt]

/-- C4 (amended).  A candidate survives the filter pass exactly when: a
supplied `icu_min` finds a known ICU count at least as large; each truthy
free-text filter (city, thana, post office, hospital name) whose record field
is also truthy scores at least 80 (a missing or empty record field lets the
record pass); a supplied non-zero `zone_id` equals the record's zone id
exactly (a supplied zero is falsy in Python and never checked); and when
latitude, longitude and radius are all supplied, both record coordinates
exist and the haversine distance (Earth radius 6371) is within the radius. -/
theorem claim_C4_amended (M : TrigModel) (q : HQuery) (h : Hospital) :
    hospital_filter M q h = true ↔
      ((∀ n, q.icu_min = some n → ∃ k, h.icus = some k ∧ n ≤ k) ∧
       (strTruthy q.city = true →
         strTruthy (h.locationResponse.getD emptyLocation).city = true →
         80 ≤ ratioQ (pyLower (q.city.getD ""))
           (pyLower (((h.locationResponse.getD emptyLocation).city).getD ""))) ∧
       (strTruthy q.thana = true →
         strTruthy (h.locationResponse.getD emptyLocation).thana = true →
         80 ≤ ratioQ (pyLower (q.thana.getD ""))
           (pyLower (((h.locationResponse.getD emptyLocation).thana).getD ""))) ∧
       (strTruthy q.po = true →
         strTruthy (h.locationResponse.getD emptyLocation).po = true →
         80 ≤ ratioQ (pyLower (q.po.getD ""))
           (pyLower (((h.locationResponse.getD emptyLocation).po).getD ""))) ∧
       (∀ z, q.zone_id = some z → z ≠ 0 →
         (h.locationResponse.getD emptyLocation).zoneId = some z) ∧
       (strTruthy q.hospital_name = true → h.name ≠ "" →
         80 ≤ ratioQ (pyLower (q.hospital_name.getD "")) (pyLower h.name)) ∧
       (∀ la lo r, q.latitude = some la → q.longitude = some lo → q.radius_km = some r →
         ∃ la2 lo2, h.latitude = some la2 ∧ h.longitude = some lo2 ∧
           haversineDist M la lo la2 lo2 ≤ r)) := by
  unfold hospital_filter
  simp only [Bool.and_eq_true, hf_icu_ok_iff, hf_city_ok_iff, hf_thana_ok_iff, hf_po_ok_iff,
    hf_zone_ok_iff, hf_name_ok_iff, hf_geo_ok_iff, and_assoc]

/-- C4 counterexample.  The record `exHZone` carries zone id 5 and the query
supplies `zone_id = 0`; the claim as stated requires the record's zone id to
equal the supplied value exactly, yet the record survives the filter, because
`if zone_id` treats the supplied 0 as falsy and skips the check. -/
theorem claim_C4_counterexample :
    exQZone.zone_id = some 0 ∧
    (exHZone.locationResponse.getD emptyLocation).zoneId = some 5 ∧
    hospital_filter trivM exQZone exHZone = true := by
  exact ⟨rfl, rfl, by decide⟩

/-- Witness for C4 (amended): with `icu_min = 1` supplied, the surviving
record `exHIcu` indeed has a known ICU count of at least 1. -/
theorem claim_C4_witness :
    hospital_filter trivM exQIcu exHIcu = true ∧ ∃ k, exHIcu.icus = some k ∧ 1 ≤ k := by
  refine ⟨by decide, ?_⟩
  exact ((claim_C4_amended trivM exQIcu exHIcu).mp (by decide)).1 1 rfl

/-! ## Claim C5: feedback augmentation -/

/-- Membership survives the slice model. -/
theorem mem_of_mem_pySlice {α : Type} (l : List α) (t : Option Int) :
    ∀ a ∈ pySlice l t, a ∈ l := by
  intro a ha
  cases t with
  | none => exact ha
  | some n =>
    simp only [pySlice] at ha
    split at ha <;> exact List.mem_of_mem_take ha

/-- C5 (amended).  A surviving record with a truthy (non-zero) identifier is
annotated with exactly the non-null ratings its feedback fetch returns and
their arithmetic mean (0 when there are none); a failing fetch degrades to no
ratings and average 0 rather than failing the search (the search still
returns its list, and every returned record is an annotated survivor); a
surviving record with the falsy identifier 0 never triggers a fetch and is
annotated with no ratings and average 0. -/
theorem claim_C5_amended (M : TrigModel) (env : Env) (q : HQuery) :
    (∀ h : Hospital, h.id ≠ 0 → ∀ fbs, env.feedbacksByHospital h.id = .ok fbs →
      (annotate env h).base = h ∧
      (annotate env h).ratings = fbs.filterMap Feedback.rating ∧
      (fbs.filterMap Feedback.rating = [] → (annotate env h).averageRating = 0) ∧
      (fbs.filterMap Feedback.rating ≠ [] →
        (annotate env h).averageRating = pyMean (fbs.filterMap Feedback.rating))) ∧
    (∀ h : Hospital, h.id ≠ 0 → ∀ s, env.feedbacksByHospital h.id = .error s →
      (annotate env h).ratings = [] ∧ (annotate env h).averageRating = 0) ∧
    (∀ h : Hospital, h.id = 0 →
      (annotate env h).ratings = [] ∧ (annotate env h).averageRating = 0) ∧
    (∀ r ∈ hospital_search_tool M env q,
      ∃ h, h ∈ survivors M env q ∧ r = annotate env h) := by
  refine ⟨?_, ?_, ?_, ?_⟩
  · intro h hid fbs hfbs
    have hann : annotate env h =
        { base := h, ratings := fbs.filterMap Feedback.rating
          averageRating := if (fbs.filterMap Feedback.rating).isEmpty then 0
            else pyMean (fbs.filterMap Feedback.rating) } := by
      unfold annotate
      rw [if_pos hid, hfbs]
    rw [hann]
    refine ⟨rfl, rfl, ?_, ?_⟩
    · intro he; simp [he]
    · intro hne
      simp only []
      rw [if_neg (by simpa [List.isEmpty_iff] using hne)]
  · intro h hid s hs
    unfold annotate
    rw [if_pos hid, hs]
    exact ⟨rfl, rfl⟩
  · intro h hid
    unfold annotate
    rw [if_neg (by simp [hid])]
    exact ⟨rfl, rfl⟩
  · intro r hr
    have hr2 : r ∈ pySortByRatingDesc (annotatedSurvivors M env q) :=
      mem_of_mem_pySlice _ _ r hr
    have hr3 : r ∈ annotatedSurvivors M env q := (perm_pySortByRatingDesc _).mem_iff.mp hr2
    obtain ⟨h, hh, rfl⟩ := List.mem_map.mp hr3
    exact ⟨h, hh, rfl⟩

/-- C5 counterexample.  Hospital `exH0` (identifier 0) survives the search
and its feedback endpoint would return one entry with rating 5, yet the
returned record carries no ratings and average 0: the code guards the fetch
with `if hospital_id:`, and the identifier 0 is falsy, so the feedback is
never fetched, contradicting the claim that every surviving hospital's
feedback is fetched and attached. -/
theorem claim_C5_counterexample :
    exH0.id = 0 ∧
    exEnvC5.feedbacksByHospital exH0.id = .ok [{ rating := some 5 }] ∧
    hospital_search_tool trivM exEnvC5 {} =
      [{ base := exH0, ratings := [], averageRating := 0 }] := by
  exact ⟨rfl, rfl, by decide⟩

/-- Witness for C5 (amended): hospital 1's feedback entries have ratings 5
and 2 (one null entry dropped); the annotated record carries `[5, 2]` and
average 7/2. -/
theorem claim_C5_witness :
    (annotate exEnvC5w exH1).ratings = [5, 2] ∧
    (annotate exEnvC5w exH1).averageRating = mkRat 7 2 := by
  have h := (claim_C5_amended trivM exEnvC5w {}).1 exH1 (by decide)
    [{ rating := some 5 }, { rating := none }, { rating := some 2 }] rfl
  constructor
  · rw [h.2.1]
    decide
  · rw [h.2.2.2 (by decide)]
    decide

/-! ## Claim C8: doctor search -/

/-- The slice model is a sublist (order-preserving selection) of its input. -/
theorem pySlice_sublist {α : Type} (l : List α) (t : Option Int) :
    (pySlice l t).Sublist l := by
  cases t with
  | none => exact List.Sublist.refl l
  | some n =>
    simp only [pySlice]
    split <;> exact List.take_sublist _ _

/-- Specialty guard characterization. -/
theorem doctor_specialty_ok_iff (q : DQuery) (d : Doctor) :
    doctor_specialty_ok q d = true ↔
      (listTruthy q.specialties = true →
        ∃ s ∈ q.specialties.getD [], ∃ t ∈ d.specialties.getD [],
          80 ≤ ratioQ (pyLower s) (pyLower t)) := by
  unfold doctor_specialty_ok
  cases hq : listTruthy q.specialties
  · simp [hq]
  · simp [hq, List.any_eq_true]

/-- Department guard characterization: a missing or empty department name
excludes the doctor when a department is queried. -/
theorem doctor_department_ok_iff (q : DQuery) (d : Doctor) :
    doctor_department_ok q d = true ↔
      (strTruthy q.department = true →
        ((d.departmentResponse.getD {}).name).getD "" ≠ "" ∧
        80 ≤ ratioQ (pyLower (q.department.getD ""))
          (pyLower (((d.departmentResponse.getD {}).name).getD ""))) := by
  unfold doctor_department_ok
  cases hq : strTruthy q.department
  · simp [hq]
  · simp [hq]

/-- Doctor-name guard characterization. -/
theorem doctor_name_ok_iff (q : DQuery) (d : Doctor) :
    doctor_name_ok q d = true ↔
      (strTruthy q.doctor_name = true →
        d.name.getD "" ≠ "" ∧
        80 ≤ ratioQ (pyLower (q.doctor_name.getD "")) (pyLower (d.name.getD ""))) := by
  unfold doctor_name_ok
  cases hq : strTruthy q.doctor_name
  · simp [hq]
  · simp [hq]

/-- City guard characterization. -/
theorem doctor_city_ok_iff (q : DQuery) (d : Doctor) :
    doctor_city_ok q d = true ↔
      (strTruthy q.city = true →
        ((d.locationResponse.getD {}).city).getD "" ≠ "" ∧
        80 ≤ ratioQ (pyLower (q.city.getD ""))
          (pyLower (((d.locationResponse.getD {}).city).getD ""))) := by
  unfold doctor_city_ok
  cases hq : strTruthy q.city
  · simp [hq]
  · simp [hq]

/-- Hospital-affiliation guard characterization. -/
theorem doctor_hospital_ok_iff (q : DQuery) (d : Doctor) :
    doctor_hospital_ok q d = true ↔
      (strTruthy q.hospital_name = true →
        ∃ hosp ∈ d.doctorHospitals.getD [], strTruthy hosp.hospitalName = true ∧
          80 ≤ ratioQ (pyLower (q.hospital_name.getD ""))
            (pyLower (hosp.hospitalName.getD ""))) := by
  unfold doctor_hospital_ok
  cases hq : strTruthy q.hospital_name
  · simp [hq]
  · simp [hq, List.any_eq_true]

/-- C8.  On a successful fetch of the full doctor set, doctor_search returns
the doctors passing every supplied filter, in fetch order, truncated to
`top_n` (default 10), with no rating augmentation and no sorting: the result
is the filtered fetch list sliced to `top_n`; it is an order-preserving
sublist of the fetch list whose members are unmodified fetched records; with
no truncation bound it is exactly the passing doctors; its length respects
the bound; and a doctor passes exactly when each supplied filter matches as
the claim describes (any-of-any for specialties, any affiliated hospital for
the hospital name, the record field itself for department, name and city). -/
theorem claim_C8_doctor_search (env : Env) (q : DQuery) (ds : List Doctor)
    (hok : env.allDoctors = .ok ds) :
    doctor_search_tool env q = .ok (pySlice (ds.filter (doctor_filter q)) q.top_n) ∧
    (∀ out, doctor_search_tool env q = .ok out →
      out.Sublist ds ∧
      (∀ d ∈ out, doctor_filter q d = true) ∧
      (q.top_n = none → ∀ d ∈ ds, doctor_filter q d = true → d ∈ out) ∧
      (∀ n : Nat, q.top_n = some (n : Int) → out.length ≤ n)) ∧
    (∀ d, doctor_filter q d = true ↔
      ((listTruthy q.specialties = true →
        ∃ s ∈ q.specialties.getD [], ∃ t ∈ d.specialties.getD [],
          80 ≤ ratioQ (pyLower s) (pyLower t)) ∧
      (strTruthy q.department = true →
        ((d.departmentResponse.getD {}).name).getD "" ≠ "" ∧
        80 ≤ ratioQ (pyLower (q.department.getD ""))
          (pyLower (((d.departmentResponse.getD {}).name).getD ""))) ∧
      (strTruthy q.doctor_name = true →
        d.name.getD "" ≠ "" ∧
        80 ≤ ratioQ (pyLower (q.doctor_name.getD "")) (pyLower (d.name.getD ""))) ∧
      (strTruthy q.city = true →
        ((d.locationResponse.getD {}).city).getD "" ≠ "" ∧
        80 ≤ ratioQ (pyLower (q.city.getD ""))
          (pyLower (((d.locationResponse.getD {}).city).getD ""))) ∧
      (strTruthy q.hospital_name = true →
        ∃ hosp ∈ d.doctorHospitals.getD [], strTruthy hosp.hospitalName = true ∧
          80 ≤ ratioQ (pyLower (q.hospital_name.getD ""))
            (pyLower (hosp.hospitalName.getD ""))))) ∧
    ({} : DQuery).top_n = some 10 := by
  have heq : doctor_search_tool env q = .ok (pySlice (ds.filter (doctor_filter q)) q.top_n) := by
    unfold doctor_search_tool
    rw [hok]
  refine ⟨heq, ?_, ?_, rfl⟩
  · intro out hout
    have hout2 : out = pySlice (ds.filter (doctor_filter q)) q.top_n := by
      rw [heq] at hout
      exact (Except.ok.inj hout).symm
    subst hout2
    refine ⟨?_, ?_, ?_, ?_⟩
    · exact (pySlice_sublist _ _).trans (List.filter_sublist ds)
    · intro d hd
      exact (List.mem_filter.mp (mem_of_mem_pySlice _ _ d hd)).2
    · intro htop d hd hpass
      rw [htop]
      exact List.mem_filter.mpr ⟨hd, hpass⟩
    · intro n htop
      rw [htop]
      exact length_pySlice_le _ n
  · intro d
    unfold doctor_filter
    simp only [Bool.and_eq_true, doctor_specialty_ok_iff, doctor_department_ok_iff,
      doctor_name_ok_iff, doctor_city_ok_iff, doctor_hospital_ok_iff, and_assoc]

/-- Witness for C8: against the two fixture doctors, the misspelled specialty
Cardiolgy selects exactly the cardiology doctor, in fetch order, and the
dermatology doctor fails the filter. -/
theorem claim_C8_witness :
    doctor_search_tool exEnvC8 exQC8 = .ok [exDoc1] ∧
    doctor_filter exQC8 exDoc2 = false := by
  have h := (claim_C8_doctor_search exEnvC8 exQC8 [exDoc1, exDoc2] rfl).1
  constructor
  · rw [h]
    simp only [Except.ok.injEq]
    decide
  · decide

/-! ## Claims C9 and C10: error contracts of the lookup tools and the
category-fetch fallback -/

/-- C9.  Invoking either name-or-id tool with neither argument returns the
descriptive required-argument error string (an ordinary return value, `.ok`,
never a raised exception); invoking either with a hospital name whose best
fuzzy match against the fetched hospital names scores below 80 returns the
descriptive no-match error string, again as `.ok`. -/
theorem claim_C9_errors :
    (∀ env : Env,
      get_tests_by_hospital_tool env none none =
        .ok "Error: Either hospitalId or hospitalName must be provided " ∧
      get_hospital_feedbacks_tool env none none =
        .ok "Error: Either hospitalId or hospitalName must be provided") ∧
    (∀ (env : Env) (nm best : String) (sc : ℚ) (hs : List Hospital),
      env.allHospitals = .ok hs →
      extractOne nm (hs.map Hospital.name) = some (best, sc) → sc < 80 →
      get_tests_by_hospital_tool env none (some nm) =
        .ok ("Error: No hospital found matching \x27" ++ nm ++ "\x27") ∧
      get_hospital_feedbacks_tool env none (some nm) =
        .ok ("Error: No hospital found matching \x27" ++ nm ++ "\x27")) := by
  constructor
  · intro env
    exact ⟨rfl, rfl⟩
  · intro env nm best sc hs hok hext hsc
    constructor
    · unfold get_tests_by_hospital_tool
      simp [hok, hext, hsc]
    · unfold get_hospital_feedbacks_tool
      simp [hok, hext, hsc]

/-- Witness for C9: against a fetched hospital list whose single name is
Alpha Hospital, the query name Zzz scores below 80, and both tools return the
no-match error string; with neither argument the tests tool returns the
required-argument error string. -/
theorem claim_C9_witness :
    get_tests_by_hospital_tool exEnvC9 none (some "Zzz") =
      .ok ("Error: No hospital found matching \x27" ++ "Zzz" ++ "\x27") ∧
    get_hospital_feedbacks_tool exEnvC9 none (some "Zzz") =
      .ok ("Error: No hospital found matching \x27" ++ "Zzz" ++ "\x27") ∧
    get_tests_by_hospital_tool exEnvC9 none none =
      .ok "Error: Either hospitalId or hospitalName must be provided " := by
  have h2 := claim_C9_errors.2 exEnvC9 "Zzz" "Alpha Hospital"
    (ratioQ "Zzz" "Alpha Hospital") [exH1] rfl rfl (by decide)
  exact ⟨h2.1, h2.2, (claim_C9_errors.1 exEnvC9).1⟩

/-- C10.  When every backend fetch for the supplied (normalized) category
filters returns a non-success status, no category contributes a set, so the
code falls back to fetching the full all-hospitals pool: the invocation
behaves exactly as if no category filter had been supplied — the upstream
failure silently broadens the result instead of yielding an empty result or
an error. -/
theorem claim_C10_fallback (M : TrigModel) (env : Env) (q : HQuery)
    (ht : ∀ t ∈ ((normalizeCats q).test_types).getD [],
      ∃ s, env.testsByType t = .error s)
    (hc : ∀ c ∈ ((normalizeCats q).cost_ranges).getD [],
      ∃ s, env.hospitalsByCostRange c = .error s)
    (hh : ∀ y ∈ ((normalizeCats q).hospital_types).getD [],
      ∃ s, env.hospitalsByType y = .error s) :
    hospital_search_tool M env q =
      hospital_search_tool M env
        { q with test_types := none, cost_ranges := none, hospital_types := none } := by
  have h1 : (if listTruthy (normalizeCats q).test_types = true then
      (test_type_set env ((normalizeCats q).test_types.getD [])).toList else []) = [] := by
    split
    · have hnil : ((normalizeCats q).test_types.getD []).filterMap
          (fun t => (env.testsByType t).toOption) = [] := by
        rw [List.filterMap_eq_nil_iff]
        intro t htm
        obtain ⟨s, hs⟩ := ht t htm
        rw [hs]
        rfl
      unfold test_type_set
      rw [hnil]
      rfl
    · rfl
  have h2 : (if listTruthy (normalizeCats q).cost_ranges = true then
      (hospital_list_set env.hospitalsByCostRange
        ((normalizeCats q).cost_ranges.getD [])).toList else []) = [] := by
    split
    · have hnil : ((normalizeCats q).cost_ranges.getD []).filterMap
          (fun c => (env.hospitalsByCostRange c).toOption) = [] := by
        rw [List.filterMap_eq_nil_iff]
        intro c hcm
        obtain ⟨s, hs⟩ := hc c hcm
        rw [hs]
        rfl
      unfold hospital_list_set
      rw [hnil]
      rfl
    · rfl
  have h3 : (if listTruthy (normalizeCats q).hospital_types = true then
      (hospital_list_set env.hospitalsByType
        ((normalizeCats q).hospital_types.getD [])).toList else []) = [] := by
    split
    · have hnil : ((normalizeCats q).hospital_types.getD []).filterMap
          (fun y => (env.hospitalsByType y).toOption) = [] := by
        rw [List.filterMap_eq_nil_iff]
        intro y hym
        obtain ⟨s, hs⟩ := hh y hym
        rw [hs]
        rfl
      unfold hospital_list_set
      rw [hnil]
      rfl
    · rfl
  have hsets : candidate_sets env q =
      (match env.allHospitals with | .ok hsl => [hsl] | .error _ => []) := by
    simp only [candidate_sets]
    rw [h1, h2, h3]
    rfl
  have hsets2 : candidate_sets env
        { q with test_types := none, cost_ranges := none, hospital_types := none } =
      (match env.allHospitals with | .ok hsl => [hsl] | .error _ => []) := rfl
  simp only [hospital_search_tool, annotatedSurvivors, survivors, candidatePool]
  rw [hsets, hsets2]
  rfl

/-- Witness for C10: the query supplies the test-type filter BLOOD, the BLOOD
fetch fails with status 500, and the search returns exactly what the
filter-free search returns — the full all-hospitals record, annotated. -/
theorem claim_C10_witness :
    hospital_search_tool trivM exEnvC10 exQC10 =
      hospital_search_tool trivM exEnvC10
        { exQC10 with test_types := none, cost_ranges := none, hospital_types := none } ∧
    hospital_search_tool trivM exEnvC10 exQC10 = [annotate exEnvC10 exH1] := by
  refine ⟨claim_C10_fallback trivM exEnvC10 exQC10 ?_ ?_ ?_, by decide⟩
  · intro t htm
    exact ⟨500, rfl⟩
  · intro c hcm
    exact ⟨500, rfl⟩
  · intro y hym
    exact ⟨500, rfl⟩
